import Mathlib

/-!
Verification development for the SPEAR engagement simulator.

This file gives a shallow embedding, over the real numbers, of the core of
the repository: the QuadTree spatial index, the synthetic precipitation
field, the radar detection-range model, the Fighter and SAM platform models,
and the `Scenario` engagement state machine (`advanceSimulationTimeStep`,
`resetScenario`, `engagementResult`).

Conventions used throughout:
* JS `number` is modelled as `ℝ`; integer-like counters as `ℤ`/`ℕ`.
* JS `Math.sqrt`, `Math.exp`, `Math.cos`, `Math.sin`, `Math.log10`,
  `Math.pow` are `Real.sqrt`, `Real.exp`, `Real.cos`, `Real.sin`,
  `Real.logb 10`, and `Real.rpow`/`Monoid.npow`.
* JS `%` (truncated remainder), `Math.round`, `Math.atan2` and
  out-of-range array indexing are modelled by the `js*` helpers below.
* Division by zero: where the source can divide by zero and the resulting
  `NaN` decides a branch, the embedding carries an explicit guard so that
  the branch taken agrees with the IEEE behaviour of the source
  (see `checkMissileIntercept`).
* The engagement `Scenario` holds exactly two position objects: the one
  created for the SAM platform and the one created for the fighter
  (`scenario.platforms.sam.position` is installed as `samSystem.position`,
  and `scenario.platforms.fighter.position` is installed as
  `fighter.position` by the `Fighter` constructor).  `createMissile`
  receives one of these two live objects, so every missile's `position`
  aliases one of them.  The two objects are modelled as a two-cell `Heap`,
  and each holder stores which cell it points at (`Owner`).
-/

noncomputable section
open scoped Classical

/-- Planar point, km Cartesian coordinates (the `IPoint`/`IPosition2D` shape). -/
structure Point where
  x : ℝ
  y : ℝ

/-- Euclidean distance `Math.sqrt(dx*dx + dy*dy)`, the formula shared by
`QuadTree.distance`, `PrecipitationCell` and the `Scenario` range helpers. -/
def dist2D (p q : Point) : ℝ :=
  Real.sqrt ((p.x - q.x) * (p.x - q.x) + (p.y - q.y) * (p.y - q.y))

/-- Truncation toward zero, the rounding JS `%` is defined from. -/
def realTrunc (x : ℝ) : ℤ :=
  if 0 ≤ x then ⌊x⌋ else ⌈x⌉

/-- JS remainder `a % b` on numbers: `a - b * trunc(a / b)` (sign of the dividend). -/
def jsRem (a b : ℝ) : ℝ :=
  a - b * (realTrunc (a / b) : ℤ)

/-- JS remainder on integer-valued operands: sign of the dividend,
magnitude `|a| mod |n|` (extensionally `a - n * trunc(a/n)`). -/
def jsRemInt (a n : ℤ) : ℤ :=
  a.sign * ((a.natAbs % n.natAbs : ℕ) : ℤ)

/-- JS `Math.round`: half-up rounding, `⌊x + 1/2⌋`. -/
def jsRound (x : ℝ) : ℤ :=
  ⌊x + 1 / 2⌋

/-- The idiom `((azimuthDeg % 360) + 360) % 360` normalising an angle to
`[0, 360)`. -/
def jsNormalizeDeg (azimuthDeg : ℝ) : ℝ :=
  jsRem (jsRem azimuthDeg 360 + 360) 360

/-- JS `Math.atan2(y, x)` on finite inputs (signed-zero distinctions dropped). -/
def jsAtan2 (y x : ℝ) : ℝ :=
  if 0 < x then Real.arctan (y / x)
  else if x < 0 then
    (if 0 ≤ y then Real.arctan (y / x) + Real.pi else Real.arctan (y / x) - Real.pi)
  else if 0 < y then Real.pi / 2
  else if y < 0 then -(Real.pi / 2)
  else 0

/-- JS array indexing `arr[i]` with an integer index: `undefined` (here
`none`) when the index is negative or past the end. -/
def listGetJS (l : List ℝ) (i : ℤ) : Option ℝ :=
  if 0 ≤ i then l.get? i.toNat else none

/-! ## QuadTree (src/synthetic/QuadTree.ts) -/

/-- Node bounds `IBounds`: centre `(x, y)`, half-width `width`, half-height `height`. -/
structure Bounds where
  x : ℝ
  y : ℝ
  width : ℝ
  height : ℝ

/-- Stored entry `IQuadTreeItem<T>`. -/
structure QItem (α : Type) where
  point : Point
  data : α

/-- The quadtree node.  The source keeps a `divided` flag and four optional
children which are either all absent or all present; the two constructors
encode exactly those two shapes. -/
inductive QuadTree (α : Type) where
  | leaf (bounds : Bounds) (capacity : ℕ) (items : List (QItem α))
  | divided (bounds : Bounds) (capacity : ℕ) (items : List (QItem α))
      (ne nw se sw : QuadTree α)

namespace QuadTree

variable {α : Type}

/-- The node's bounds field. -/
def boundsOf : QuadTree α → Bounds
  | .leaf b _ _ => b
  | .divided b _ _ _ _ _ _ => b

/-- The node's capacity field. -/
def capacityOf : QuadTree α → ℕ
  | .leaf _ c _ => c
  | .divided _ c _ _ _ _ _ => c

/-- `containsPoint`: membership of a point in the (closed) rectangle. -/
def containsPt (b : Bounds) (p : Point) : Prop :=
  b.x - b.width ≤ p.x ∧ p.x ≤ b.x + b.width ∧
    b.y - b.height ≤ p.y ∧ p.y ≤ b.y + b.height

/-- North-east quadrant created by `subdivide`. -/
def neBounds (b : Bounds) : Bounds :=
  ⟨b.x + b.width / 2, b.y + b.height / 2, b.width / 2, b.height / 2⟩

/-- North-west quadrant created by `subdivide`. -/
def nwBounds (b : Bounds) : Bounds :=
  ⟨b.x - b.width / 2, b.y + b.height / 2, b.width / 2, b.height / 2⟩

/-- South-east quadrant created by `subdivide`. -/
def seBounds (b : Bounds) : Bounds :=
  ⟨b.x + b.width / 2, b.y - b.height / 2, b.width / 2, b.height / 2⟩

/-- South-west quadrant created by `subdivide`. -/
def swBounds (b : Bounds) : Bounds :=
  ⟨b.x - b.width / 2, b.y - b.height / 2, b.width / 2, b.height / 2⟩

/-- A freshly constructed node (`new QuadTree(bounds, capacity)`). -/
def emptyLeaf (b : Bounds) (cap : ℕ) : QuadTree α :=
  .leaf b cap []

/-- Insertion into a child just created by `subdivide` (it has no items and
no children).  For positive capacity this is exactly `insert` on
`emptyLeaf`; for capacity zero the source recurses forever, a configuration
the repository never builds (the field always constructs with capacity 4). -/
def insertFresh (b : Bounds) (cap : ℕ) (p : Point) (d : α) : Bool × QuadTree α :=
  if containsPt b p ∧ 0 < cap then (true, .leaf b cap [⟨p, d⟩])
  else (false, .leaf b cap [])

/-- `insert(point, data)`: `false` if the point is outside the node bounds;
store locally while under capacity; otherwise subdivide lazily and delegate
NE → NW → SE → SW, returning on the first success. -/
def insert : QuadTree α → Point → α → Bool × QuadTree α
  | .leaf b cap items, p, d =>
    if ¬ containsPt b p then (false, .leaf b cap items)
    else if items.length < cap then (true, .leaf b cap (items ++ [⟨p, d⟩]))
    else
      -- subdivide: four fresh children, then try them in order
      let r1 := insertFresh (neBounds b) cap p d
      if r1.1 then
        (true, .divided b cap items r1.2 (emptyLeaf (nwBounds b) cap)
          (emptyLeaf (seBounds b) cap) (emptyLeaf (swBounds b) cap))
      else
        let r2 := insertFresh (nwBounds b) cap p d
        if r2.1 then
          (true, .divided b cap items (emptyLeaf (neBounds b) cap) r2.2
            (emptyLeaf (seBounds b) cap) (emptyLeaf (swBounds b) cap))
        else
          let r3 := insertFresh (seBounds b) cap p d
          if r3.1 then
            (true, .divided b cap items (emptyLeaf (neBounds b) cap)
              (emptyLeaf (nwBounds b) cap) r3.2 (emptyLeaf (swBounds b) cap))
          else
            let r4 := insertFresh (swBounds b) cap p d
            (r4.1, .divided b cap items (emptyLeaf (neBounds b) cap)
              (emptyLeaf (nwBounds b) cap) (emptyLeaf (seBounds b) cap) r4.2)
  | .divided b cap items ne nw se sw, p, d =>
    if ¬ containsPt b p then (false, .divided b cap items ne nw se sw)
    else if items.length < cap then
      (true, .divided b cap (items ++ [⟨p, d⟩]) ne nw se sw)
    else
      let r1 := insert ne p d
      if r1.1 then (true, .divided b cap items r1.2 nw se sw)
      else
        let r2 := insert nw p d
        if r2.1 then (true, .divided b cap items ne r2.2 se sw)
        else
          let r3 := insert se p d
          if r3.1 then (true, .divided b cap items ne nw r3.2 sw)
          else
            let r4 := insert sw p d
            (r4.1, .divided b cap items ne nw se r4.2)

/-- `intersectsCircle`: clamp the centre to the rectangle and compare the
distance with the radius. -/
def intersectsCircle (b : Bounds) (c : Point) (r : ℝ) : Prop :=
  dist2D ⟨max (b.x - b.width) (min c.x (b.x + b.width)),
          max (b.y - b.height) (min c.y (b.y + b.height))⟩ c ≤ r

/-- `queryRange(center, radius)`: prune by circle/rectangle intersection,
collect this node's items within the radius, then the children's results. -/
def queryRange : QuadTree α → Point → ℝ → List (QItem α)
  | .leaf b _ items, c, r =>
    if ¬ intersectsCircle b c r then []
    else items.filter (fun it => decide (dist2D it.point c ≤ r))
  | .divided b _ items ne nw se sw, c, r =>
    if ¬ intersectsCircle b c r then []
    else
      items.filter (fun it => decide (dist2D it.point c ≤ r)) ++
        queryRange ne c r ++ queryRange nw c r ++ queryRange se c r ++
          queryRange sw c r

/-- `queryAll()`: every stored item, this node first, then NE, NW, SE, SW. -/
def allItems : QuadTree α → List (QItem α)
  | .leaf _ _ items => items
  | .divided _ _ items ne nw se sw =>
    items ++ allItems ne ++ allItems nw ++ allItems se ++ allItems sw

/-- Structural invariant of every tree the repository builds: positive
capacity, non-negative half-extents, items stored in-bounds, and children
carved by `subdivide` from the parent bounds with the parent capacity. -/
def WF : QuadTree α → Prop
  | .leaf b cap items =>
    0 < cap ∧ 0 ≤ b.width ∧ 0 ≤ b.height ∧ ∀ it ∈ items, containsPt b it.point
  | .divided b cap items ne nw se sw =>
    0 < cap ∧ 0 ≤ b.width ∧ 0 ≤ b.height ∧
      (∀ it ∈ items, containsPt b it.point) ∧
      ne.boundsOf = neBounds b ∧ nw.boundsOf = nwBounds b ∧
      se.boundsOf = seBounds b ∧ sw.boundsOf = swBounds b ∧
      ne.capacityOf = cap ∧ nw.capacityOf = cap ∧
      se.capacityOf = cap ∧ sw.capacityOf = cap ∧
      WF ne ∧ WF nw ∧ WF se ∧ WF sw

/-- Insert a list of (point, payload) pairs in order, dropping the success
flags, the way `generateCells` drives the index. -/
def insertList (t : QuadTree α) : List (Point × α) → QuadTree α
  | [] => t
  | pr :: rest => insertList (insert t pr.1 pr.2).2 rest

end QuadTree

/-! ## PrecipitationCell (src/synthetic/PrecipitationCell.ts) -/

/-- A Gaussian rain-rate blob. -/
structure PrecipitationCell where
  center : Point
  size : ℝ
  rate : ℝ
  alpha : ℝ

namespace PrecipitationCell

/-- `getRainRateAt`: Gaussian falloff `rate · exp(-0.5 · (d/σ)²)`, `σ = alpha · size`. -/
def getRainRateAt (c : PrecipitationCell) (x y : ℝ) : ℝ :=
  c.rate * Real.exp (-0.5 * (dist2D ⟨x, y⟩ c.center / (c.alpha * c.size)) ^ 2)

/-- `isInRange`: within the cell's effective radius. -/
def isInRange (c : PrecipitationCell) (x y : ℝ) : Prop :=
  dist2D ⟨x, y⟩ c.center ≤ c.size

end PrecipitationCell

/-! ## SyntheticPrecipitationField (src/synthetic/SyntheticPrecipitationField.ts) -/

/-- The part of `ISyntheticFieldConfig` that `sampleRainRate` reads. -/
structure SyntheticFieldConfig where
  nominalCellSize : ℝ

/-- The field: its cells and the quadtree over their centres.  Generation
(`generateCells`) is driven by `Math.random` and only ever produces cells
and a tree; sampling, below, is deterministic in this data. -/
structure SyntheticPrecipitationField where
  config : SyntheticFieldConfig
  cells : List PrecipitationCell
  quadTree : QuadTree PrecipitationCell

namespace SyntheticPrecipitationField

/-- `sampleRainRate(x, y)`: query the index within `nominalCellSize · 10`,
sum `rate(p) · exp(-dist / (2σ²))` over the in-range cells, and clamp the
sum with `Math.min(·, 50)`.  Returns 0 when the query comes back empty. -/
def sampleRainRate (fld : SyntheticPrecipitationField) (x y : ℝ) : ℝ :=
  let searchRadius := fld.config.nominalCellSize * 10
  let nearbyCells := fld.quadTree.queryRange ⟨x, y⟩ searchRadius
  if nearbyCells = [] then 0
  else
    let rainTotal := nearbyCells.foldl
      (fun acc it =>
        if it.data.isInRange x y then
          acc + it.data.getRainRateAt x y *
            Real.exp (-(dist2D ⟨x, y⟩ it.data.center) /
              (2 * (it.data.alpha * it.data.size) * (it.data.alpha * it.data.size)))
        else acc)
      0
    min rainTotal 50

end SyntheticPrecipitationField

/-! ## Radar (src/scenario/Radar.ts) -/

/-- `TPulseIntegrationMode`. -/
inductive PulseMode where
  | coherent
  | noncoherent
  deriving DecidableEq

namespace Radar

/-- `wattsToDecibels`: `10 · log10(w)`. -/
def wattsToDecibels (w : ℝ) : ℝ :=
  10 * Real.logb 10 w

/-- `decibelsToWatts`: `10^(db/10)`. -/
def decibelsToWatts (db : ℝ) : ℝ :=
  (10 : ℝ) ^ (db / 10)

/-- `rangeDeltaFromDecibels`: range scales with the fourth root of the
linear power gain. -/
def rangeDeltaFromDecibels (dbGain : ℝ) : ℝ :=
  decibelsToWatts dbGain ^ (0.25 : ℝ)

/-- `calculatePulseIntegrationGain`: coherent `10·log10(√N)`,
non-coherent `10·log10(N^0.7)`. -/
def calculatePulseIntegrationGain (mode : PulseMode) (pulses : ℝ) : ℝ :=
  match mode with
  | .coherent => wattsToDecibels (Real.sqrt pulses)
  | .noncoherent => wattsToDecibels (pulses ^ (0.7 : ℝ))

/-- `calculateDetectionRange(rcs, pulses, range)`: apply the pulse
integration gain as a range factor, then the fourth-root RCS scaling
against the 1 m² baseline. -/
def calculateDetectionRange (mode : PulseMode) (rcs pulses range : ℝ) : ℝ :=
  let pulseGain := calculatePulseIntegrationGain mode pulses
  let range2 := range * rangeDeltaFromDecibels pulseGain
  range2 * ((rcs / 1) ^ (0.25 : ℝ))

end Radar

/-! ## Fighter (src/scenario/Fighter.ts) -/

/-- Aspect RCS table of the fighter platform config. -/
structure RCSAspect where
  nose : ℝ
  tail : ℝ
  side : ℝ

namespace Fighter

/-- `getRCSAtAspect(azimuthDeg)`: normalise to `[0, 360)` with
`((azimuthDeg % 360) + 360) % 360`, then the three-sector model:
nose strictly inside ±30° of 0/360, tail strictly inside (150°, 210°),
side otherwise. -/
def getRCSAtAspect (rcs : RCSAspect) (azimuthDeg : ℝ) : ℝ :=
  let angle := jsNormalizeDeg azimuthDeg
  if angle < 30 ∨ 330 < angle then rcs.nose
  else if 150 < angle ∧ angle < 210 then rcs.tail
  else rcs.side

/-- `getAzimuthFromSAM(samPosition)`: `atan2` of the fighter position minus
the SAM position, in degrees. -/
def getAzimuthFromSAM (fighterPos samPos : Point) : ℝ :=
  jsAtan2 (fighterPos.y - samPos.y) (fighterPos.x - samPos.x) * 180 / Real.pi

/-- `shouldLaunchHARM(distanceToSAM, samMEMR, samTracking)`: when tracking,
launch exactly when within the SAM's MEMR with the HARM's range strictly
below the current distance; when not tracking the source falls through and
returns `undefined`, modelled as `none`. -/
def shouldLaunchHARM (harmRange distanceToSAM samMEMR : ℝ)
    (samTracking : Bool) : Option Bool :=
  if samTracking then
    (if distanceToSAM ≤ samMEMR ∧ harmRange < distanceToSAM then some true
     else some false)
  else none

end Fighter

/-! ## Platform and engagement state (src/scenario/Scenario.ts) -/

/-- Which of the two live position objects a holder points at. -/
inductive Owner where
  | sam
  | fighter
  deriving DecidableEq

/-- The two position objects of an engagement (see the file header). -/
structure Heap where
  samCell : Point
  fighterCell : Point

/-- Read a position object. -/
def heapGet (h : Heap) : Owner → Point
  | .sam => h.samCell
  | .fighter => h.fighterCell

/-- Mutate a position object in place. -/
def heapSet (h : Heap) : Owner → Point → Heap
  | .sam, p => { h with samCell := p }
  | .fighter, p => { h with fighterCell := p }

/-- Missile status strings. -/
inductive MissileStatus where
  | active
  | kill
  | missed
  deriving DecidableEq

/-- Platform state strings. -/
inductive PlatformState where
  | active
  | destroyed
  deriving DecidableEq

/-- SAM tracking status strings (`tracking` / `not_tracking`). -/
inductive TrackStatus where
  | tracking
  | notTracking
  deriving DecidableEq

/-- Fighter maneuver strings (`none` / `evasive`). -/
inductive ManeuverKind where
  | none
  | evasive
  deriving DecidableEq

/-- `TMissile`.  `position` is the live object `heapGet · posPtr`; `target`
is the live reference to the opposing platform (`Fighter` for SAM shots,
`SAMSystem` for HARMs).  `maxRange` is optional in the type but both launch
sites supply it; the JS truthiness test on it is modelled against 0. -/
structure TMissile where
  posPtr : Owner
  velocity : ℝ
  heading : ℝ
  status : MissileStatus
  launchedBy : Owner
  timeOfLaunch : ℝ
  timeOfImpact : ℝ
  maxRange : ℝ
  target : Owner

/-- `createMissile` factory: a fresh record, `status: 'active'`,
`timeOfImpact: 0`, storing the passed-in (live) position object. -/
def createMissile (posPtr : Owner) (velocity heading : ℝ) (launchedBy : Owner)
    (timeOfLaunch : ℝ) (target : Owner) (maxRange : ℝ) : TMissile :=
  { posPtr := posPtr, velocity := velocity, heading := heading
    status := .active, launchedBy := launchedBy, timeOfLaunch := timeOfLaunch
    timeOfImpact := 0, maxRange := maxRange, target := target }

/-- SAM tracking bookkeeping. -/
structure TrackingStatus where
  status : TrackStatus
  timeElapsedTracking : ℝ

/-- SAM ammunition bookkeeping. -/
structure SAMStatus where
  missilesRemaining : ℤ
  lastLaunchTime : ℝ

/-- Engagement state of the SAM system as read by `Scenario`.  The class
implementation `SAMSystem.js` is not part of the snapshot; the fields here
are the ones the `Scenario` code reads, and `rangesAzimuth` is the
precomputed per-azimuth nominal detection range table returned by
`getRangesAzimuth()`. -/
structure SAMSystemState where
  state : PlatformState
  trackingStatus : TrackingStatus
  status : SAMStatus
  launchIntervalSec : ℝ
  missileVelocity : ℝ
  memr : ℝ
  numPulses : ℝ
  pulseIntegrationMode : PulseMode
  rangesAzimuth : List ℝ

/-- Modelled from the spec: `SAMSystem.isWithinMEMR(distance)` — the
`SAMSystem.js` implementation is missing from the snapshot; §4.4 of the
design document specifies it as a simple threshold comparison against the
configured MEMR. -/
def SAMSystemState.isWithinMEMR (sam : SAMSystemState) (distance : ℝ) : Bool :=
  decide (distance ≤ sam.memr)

/-- Engagement state of the fighter (`Fighter` class fields read by
`Scenario`; the position lives in the heap). -/
structure FighterState where
  velocity : ℝ
  heading : ℝ
  rcs : RCSAspect
  harmVelocity : ℝ
  harmRange : ℝ
  missilesRemaining : ℤ
  state : PlatformState
  maneuvers : ManeuverKind

/-- The engagement simulator state (the mutable fields of the `Scenario`
class; the scenario id, platform config ids and the precipitation field are
not read by the operations below). -/
structure SimState where
  timeStep : ℝ
  timeElapsed : ℝ
  heap : Heap
  samSystem : SAMSystemState
  fighter : FighterState
  missiles : List TMissile
  isEngagementComplete : Bool

namespace Scenario

/-- `getDistanceSAMToFighter()`. -/
def getDistanceSAMToFighter (s : SimState) : ℝ :=
  dist2D s.heap.fighterCell s.heap.samCell

/-- `getAzimuthSAMToFighter()`: degrees from the SAM to the fighter. -/
def getAzimuthSAMToFighter (s : SimState) : ℝ :=
  jsAtan2 (s.heap.fighterCell.y - s.heap.samCell.y)
      (s.heap.fighterCell.x - s.heap.samCell.x) * 180 / Real.pi

/-- `fighterDetect(true)` (the branch taken by the step): index the
per-azimuth range table by the rounded azimuth fraction, take the aspect
RCS at the raw azimuth, and rescale by pulse integration and RCS.  An
out-of-range table index is JS `undefined`, which poisons the range to
`NaN`; that is modelled as `none`. -/
def fighterDetect (s : SimState) : Option ℝ :=
  let azimuthDeg := Fighter.getAzimuthFromSAM s.heap.fighterCell s.heap.samCell
  let azimuths := s.samSystem.rangesAzimuth
  let numAzimuths := azimuths.length
  let azimuthIndex :=
    jsRemInt (jsRound (jsRem azimuthDeg 360 / 360 * numAzimuths)) numAzimuths
  let rcs := Fighter.getRCSAtAspect s.fighter.rcs azimuthDeg
  match listGetJS azimuths azimuthIndex with
  | none => none
  | some nominalRange =>
    some (Radar.calculateDetectionRange s.samSystem.pulseIntegrationMode rcs
      s.samSystem.numPulses nominalRange)

/-- `isFighterDetected(true)`: distance within the (possibly `NaN`)
detection range; a `NaN` range compares false. -/
def isFighterDetected (s : SimState) : Bool :=
  match fighterDetect s with
  | none => false
  | some detectionRange => decide (getDistanceSAMToFighter s ≤ detectionRange)

/-- `shouldFighterLaunchHARM()`. -/
def shouldFighterLaunchHARM (s : SimState) : Option Bool :=
  Fighter.shouldLaunchHARM s.fighter.harmRange (getDistanceSAMToFighter s)
    s.samSystem.memr
    (decide (s.samSystem.trackingStatus.status = .tracking))

/-- Tracking-status update at the top of the step. -/
def trackingPhase (isDetected : Bool) (s : SimState) : SimState :=
  if isDetected then
    let ts : TrackingStatus :=
      ⟨.tracking, s.samSystem.trackingStatus.timeElapsedTracking + s.timeStep⟩
    { s with samSystem := { s.samSystem with trackingStatus := ts } }
  else
    { s with samSystem := { s.samSystem with trackingStatus := ⟨.notTracking, 0⟩ } }

/-- SAM missile launch block: requires detection, an active SAM, the
fighter within MEMR, remaining ammunition, and an elapsed inter-launch
interval.  The spawned missile stores the SAM's own position object. -/
def samLaunchPhase (isDetected : Bool) (distance azimuth : ℝ)
    (s : SimState) : SimState :=
  if isDetected = true ∧ s.samSystem.state = .active ∧
      s.samSystem.isWithinMEMR distance = true ∧
      0 < s.samSystem.status.missilesRemaining ∧
      s.samSystem.launchIntervalSec ≤
        s.timeElapsed - s.samSystem.status.lastLaunchTime then
    let missileVelocityKmS := s.samSystem.missileVelocity * 343 / 1000
    let newMissiles := s.missiles ++
      [createMissile .sam missileVelocityKmS azimuth .sam s.timeElapsed
        .fighter s.samSystem.memr]
    let newStatus : SAMStatus :=
      ⟨s.samSystem.status.missilesRemaining - 1, s.timeElapsed⟩
    { s with missiles := newMissiles
             samSystem := { s.samSystem with status := newStatus } }
  else s

/-- HARM launch block: fires exactly when `shouldFighterLaunchHARM` comes
back `true` (an `undefined` fall-through is no-launch) and ammunition
remains.  The spawned missile stores the fighter's own position object. -/
def harmLaunchPhase (s : SimState) : SimState :=
  if shouldFighterLaunchHARM s = some true ∧ 0 < s.fighter.missilesRemaining then
    let harmVelocityKmS := s.fighter.harmVelocity * 343 / 1000
    let angleToSAM :=
      jsAtan2 (s.heap.samCell.y - s.heap.fighterCell.y)
          (s.heap.samCell.x - s.heap.fighterCell.x) * 180 / Real.pi
    let newMissiles := s.missiles ++
      [createMissile .fighter harmVelocityKmS angleToSAM .fighter
        s.timeElapsed .sam s.fighter.harmRange]
    let newFighter := { s.fighter with
      missilesRemaining := s.fighter.missilesRemaining - 1 }
    { s with missiles := newMissiles, fighter := newFighter }
  else s

/-- Pursuit-guidance heading update of one missile (the SAM-tracking
branch): steer toward the target's current position, rate-limited by a 30G
turn at the missile's speed (the source feeds `missile.velocity`, already
km/s, to the Mach→m/s conversion; reproduced as written). -/
def pursuitHeading (h : Heap) (timeStep : ℝ) (m : TMissile) : TMissile :=
  let dx := (heapGet h m.target).x - (heapGet h m.posPtr).x
  let dy := (heapGet h m.target).y - (heapGet h m.posPtr).y
  let desiredHeading := jsAtan2 dy dx * 180 / Real.pi
  let headingDiff := desiredHeading - m.heading
  let headingDiffRad := headingDiff * Real.pi / 180
  let velMetersPerSec := m.velocity * 343
  let maxTurnRate := 9.8 * 30 / velMetersPerSec
  if maxTurnRate * timeStep < |headingDiffRad| then
    let newHeading := m.heading +
      maxTurnRate * timeStep * (if 0 < headingDiffRad then 1 else -1) *
        (180 / Real.pi)
    { m with heading := newHeading }
  else { m with heading := desiredHeading }

/-- Heading update of all active missiles: random jitter (±5° scaled) while
the SAM is not tracking, pursuit guidance while it is.  `rng i` stands for
the `Math.random()` draw consumed by the `i`-th missile. -/
def missileHeadingPhase (rng : ℕ → ℝ) (s : SimState) : SimState :=
  let newMissiles := s.missiles.mapIdx (fun i m =>
    if m.status = .active then
      if s.samSystem.trackingStatus.status ≠ .tracking then
        let jitteredHeading := m.heading +
          (rng i * 2 - 1) * (Real.pi / 180 * 5) * (180 / Real.pi)
        { m with heading := jitteredHeading }
      else pursuitHeading s.heap s.timeStep m
    else m)
  { s with missiles := newMissiles }

/-- Position update of all active missiles: Euler step along the heading,
written through the missile's (possibly shared) position object,
sequentially in list order. -/
def missilePositionPhase (s : SimState) : SimState :=
  let newHeap := s.missiles.foldl
    (fun h m =>
      if m.status = .active then
        let headingRad := m.heading * Real.pi / 180
        let p := heapGet h m.posPtr
        heapSet h m.posPtr
          ⟨p.x + m.velocity * Real.cos headingRad * s.timeStep,
           p.y + m.velocity * Real.sin headingRad * s.timeStep⟩
      else h)
    s.heap
  { s with heap := newHeap }

/-- Evasive-maneuver heading update of the fighter (6G limit, steering
perpendicular to the SAM bearing). -/
def evasivePhase (s : SimState) : SimState :=
  if s.fighter.maneuvers = .evasive then
    let maxTurnRate := 9.8 * 6 / (s.fighter.velocity * 343)
    let angleToSAMRad :=
      jsAtan2 (s.heap.samCell.y - s.heap.fighterCell.y)
        (s.heap.samCell.x - s.heap.fighterCell.x)
    let desiredHeadingRad := angleToSAMRad + Real.pi / 2
    let rawDiff := desiredHeadingRad - s.fighter.heading * Real.pi / 180
    let headingDiffRad := jsAtan2 (Real.sin rawDiff) (Real.cos rawDiff)
    if maxTurnRate * s.timeStep < |headingDiffRad| then
      let newHeading := s.fighter.heading +
        maxTurnRate * s.timeStep * (if 0 < headingDiffRad then 1 else -1) *
          (180 / Real.pi)
      { s with fighter := { s.fighter with heading := newHeading } }
    else
      let newHeading := s.fighter.heading + headingDiffRad * (180 / Real.pi)
      { s with fighter := { s.fighter with heading := newHeading } }
  else s

/-- `updateFighterPosition()`: straight-line step along the heading.  Note
the source increments `x` with `+=` but assigns `y` with `=`, so the new
`y` is the displacement alone; reproduced as written. -/
def updateFighterPosition (s : SimState) : SimState :=
  let velocityKmS := s.fighter.velocity * 343 / 1000
  let distanceKm := velocityKmS * s.timeStep
  let headingRad := s.fighter.heading * Real.pi / 180
  let newCell : Point :=
    ⟨s.heap.fighterCell.x + distanceKm * Real.cos headingRad,
     distanceKm * Real.sin headingRad⟩
  { s with heap := { s.heap with fighterCell := newCell } }

/-- Fighter position update, gated on the fighter being active. -/
def fighterMovePhase (s : SimState) : SimState :=
  if s.fighter.state = .active then updateFighterPosition s else s

/-- `checkMissileIntercept(missile, targetPos, previousMissilePos)`: project
the target onto the previous→current segment and compare the residual with
the kill radius (0.02 km for SAM shots, 0.05 for HARMs).  When the segment
is degenerate the source divides 0 by 0; the resulting `NaN` makes the
final comparison false, hence the explicit guard. -/
def checkMissileIntercept (missilePos targetPos previousMissilePos : Point)
    (launchedBy : Owner) : Bool :=
  let mx := missilePos.x - previousMissilePos.x
  let my := missilePos.y - previousMissilePos.y
  let tx := targetPos.x - previousMissilePos.x
  let ty := targetPos.y - previousMissilePos.y
  let magM := Real.sqrt (mx * mx + my * my)
  if magM = 0 then false
  else
    let d := (tx * mx + ty * my) / magM
    let closestX := previousMissilePos.x + d / magM * mx
    let closestY := previousMissilePos.y + d / magM * my
    let distX := targetPos.x - closestX
    let distY := targetPos.y - closestY
    let distanceToTarget := Real.sqrt (distX * distX + distY * distY)
    let killRadius : ℝ := if launchedBy = .sam then 0.02 else 0.05
    decide (distanceToTarget ≤ killRadius)

/-- One iteration of the kill-criteria loop.  `previousPosition` is the
spread-copy `{ ...missile.position }` the source takes — after the position
updates have already run, so it coincides with the current position.  On an
intercept the missile is marked `kill`, stamped, and the target platform
destroyed (both `launchedBy` branches of the source do the same); otherwise
an over-range active missile is marked `missed`. -/
def killFold (h : Heap) (timeElapsed : ℝ)
    (acc : List TMissile × FighterState × SAMSystemState × Bool)
    (m : TMissile) : List TMissile × FighterState × SAMSystemState × Bool :=
  let ms := acc.1
  let f := acc.2.1
  let sam := acc.2.2.1
  let complete := acc.2.2.2
  if m.status = .active then
    let previousPosition := heapGet h m.posPtr
    let targetPosition := heapGet h m.target
    if checkMissileIntercept (heapGet h m.posPtr) targetPosition
        previousPosition m.launchedBy then
      let m2 := { m with status := .kill, timeOfImpact := timeElapsed }
      match m.target with
      | .fighter => (ms ++ [m2], { f with state := .destroyed }, sam, true)
      | .sam => (ms ++ [m2], f, { sam with state := .destroyed }, true)
    else
      let distanceTraveled := m.velocity * (timeElapsed - m.timeOfLaunch)
      if m.maxRange ≠ 0 ∧ m.maxRange ≤ distanceTraveled then
        (ms ++ [{ m with status := .missed }], f, sam, complete)
      else (ms ++ [m], f, sam, complete)
  else (ms ++ [m], f, sam, complete)

/-- The kill-criteria loop over all missiles. -/
def killPhase (s : SimState) : SimState × Bool :=
  let r := s.missiles.foldl (killFold s.heap s.timeElapsed)
    ([], s.fighter, s.samSystem, false)
  ({ s with missiles := r.1, fighter := r.2.1, samSystem := r.2.2.1 }, r.2.2.2)

/-- `advanceSimulationTimeStep()`.  The returned state's
`isEngagementComplete` field is the boolean the source returns. -/
def advanceSimulationTimeStep (rng : ℕ → ℝ) (s : SimState) : SimState :=
  let s1 := { s with timeElapsed := s.timeElapsed + s.timeStep }
  let distance := getDistanceSAMToFighter s1
  let isDetected := isFighterDetected s1
  let azimuth := getAzimuthSAMToFighter s1
  let s2 := trackingPhase isDetected s1
  let s3 := samLaunchPhase isDetected distance azimuth s2
  let s4 := harmLaunchPhase s3
  let s5 := missileHeadingPhase rng s4
  let s6 := missilePositionPhase s5
  let s7 := evasivePhase s6
  let s8 := fighterMovePhase s7
  let p := killPhase s8
  let s9 := p.1
  -- the all-expended sweep: skipped entirely on an empty list (the kill
  -- loop's flag survives), otherwise every missile must be resolved
  let complete1 :=
    if s9.missiles = [] then p.2
    else s9.missiles.all (fun m => decide (m.status ≠ MissileStatus.active))
  if (600 : ℝ) ≤ s9.timeElapsed then
    { s9 with timeElapsed := 600, isEngagementComplete := true }
  else { s9 with isEngagementComplete := complete1 }

/-- `resetScenario()` (source name `resetScenario`): rewind the clock,
clear the completion flag, empty the missile list — and nothing else. -/
def resetScenarioState (s : SimState) : SimState :=
  { s with timeElapsed := 0, isEngagementComplete := false, missiles := [] }

/-- `getTimeElapsed()`. -/
def getTimeElapsed (s : SimState) : ℝ :=
  s.timeElapsed

/-- `getMissiles()`. -/
def getMissiles (s : SimState) : List TMissile :=
  s.missiles

/-- One entry of `engagementResult().missileResults` (the source's `id`
string `"SAM-Missile-${t}"`/`"HARM-Missile-${t}"` is presentation-only
formatting of `launchedBy` and `launchTime` and is not modelled). -/
structure MissileResult where
  launchedBy : Owner
  launchTime : ℝ
  timeOfImpact : Option ℝ
  impactPosition : Option Point
  status : MissileStatus

/-- `IEngagementResult` as assembled by `engagementResult()` (the scenario
id string and the `new Date()` timestamp are not modelled). -/
structure EngagementResult where
  missileResults : List MissileResult
  success : Bool

/-- `engagementResult()`: per-missile records plus
`success = (samSystem.state === 'destroyed' ? false : true)`. -/
def engagementResult (s : SimState) : EngagementResult :=
  let results := s.missiles.map (fun m =>
    { launchedBy := m.launchedBy
      launchTime := m.timeOfLaunch
      timeOfImpact := if m.status = .kill then some m.timeOfImpact else none
      impactPosition :=
        if m.status = .kill then some (heapGet s.heap m.target) else none
      status := m.status : MissileResult })
  { missileResults := results
    success := if s.samSystem.state = .destroyed then false else true }

end Scenario

/-! ## Small evaluation lemmas shared by several claims -/

theorem listGetJS_nil (i : ℤ) : listGetJS [] i = none := by
  unfold listGetJS
  split <;> simp

theorem jsRem_zero_left (b : ℝ) : jsRem 0 b = 0 := by
  simp [jsRem, realTrunc]

theorem realTrunc_nonneg_eq_floor {x : ℝ} (h : 0 ≤ x) : realTrunc x = ⌊x⌋ := by
  simp [realTrunc, h]

/-! ## C4 -/

/-- C4: for every simulator state, `engagementResult().success` is true if
and only if the SAM system's state is not `'destroyed'`. -/
theorem c4_engagement_success_iff (s : SimState) :
    (Scenario.engagementResult s).success = true ↔
      s.samSystem.state ≠ PlatformState.destroyed := by
  by_cases h : s.samSystem.state = PlatformState.destroyed <;>
    simp [Scenario.engagementResult, h]

/-- Closed instance of `c4_engagement_success_iff` at a concrete state with
a destroyed SAM. -/
def c4SampleState : SimState :=
  { timeStep := 1
    timeElapsed := 42
    heap := ⟨⟨0, 0⟩, ⟨1, 0⟩⟩
    samSystem :=
      { state := .destroyed
        trackingStatus := ⟨.notTracking, 0⟩
        status := ⟨2, 0⟩
        launchIntervalSec := 5
        missileVelocity := 3
        memr := 20
        numPulses := 1
        pulseIntegrationMode := .coherent
        rangesAzimuth := [] }
    fighter :=
      { velocity := 0.9
        heading := 0
        rcs := ⟨5, 4, 3⟩
        harmVelocity := 2
        harmRange := 15
        missilesRemaining := 1
        state := .active
        maneuvers := .none }
    missiles := []
    isEngagementComplete := true }

/-! ## C3 -/

/-- Concrete state whose fighter has already been destroyed, used to show
that `resetScenario()` does not resurrect platform state. -/
def c3DestroyedState : SimState :=
  { c4SampleState with
    samSystem := { c4SampleState.samSystem with state := .active }
    fighter := { c4SampleState.fighter with state := .destroyed } }

/-- C3 counterexample: after `resetScenario()` on a state whose fighter is
`'destroyed'`, the clock and missile list are reset but the fighter state
is still `'destroyed'`, not `'active'` as claimed. -/
theorem c3_reset_counterexample :
    Scenario.getTimeElapsed (Scenario.resetScenarioState c3DestroyedState) = 0 ∧
    Scenario.getMissiles (Scenario.resetScenarioState c3DestroyedState) = [] ∧
    (Scenario.resetScenarioState c3DestroyedState).fighter.state =
      PlatformState.destroyed ∧
    PlatformState.destroyed ≠ PlatformState.active := by
  refine ⟨rfl, rfl, rfl, by simp⟩

/-- C3 amended: after `resetScenario()` the elapsed time is 0, the missile
list is empty and the completion flag is cleared, while both platform
records — configuration and state alike — are left exactly as they were; in
particular the platform states are `'active'` after the call precisely when
they were `'active'` before it. -/
theorem c3_reset_amended (s : SimState) :
    Scenario.getTimeElapsed (Scenario.resetScenarioState s) = 0 ∧
    Scenario.getMissiles (Scenario.resetScenarioState s) = [] ∧
    (Scenario.resetScenarioState s).isEngagementComplete = false ∧
    (Scenario.resetScenarioState s).fighter = s.fighter ∧
    (Scenario.resetScenarioState s).samSystem = s.samSystem ∧
    ((Scenario.resetScenarioState s).fighter.state = PlatformState.active ↔
      s.fighter.state = PlatformState.active) ∧
    ((Scenario.resetScenarioState s).samSystem.state = PlatformState.active ↔
      s.samSystem.state = PlatformState.active) := by
  refine ⟨rfl, rfl, rfl, rfl, rfl, Iff.rfl, Iff.rfl⟩

/-! ## C10 -/

theorem jsNormalizeDeg_thirty : jsNormalizeDeg (30 : ℝ) = 30 := by
  have h1 : realTrunc ((30 : ℝ) / 360) = 0 := by
    rw [realTrunc_nonneg_eq_floor (by norm_num)]
    rw [Int.floor_eq_iff] <;> norm_num
  have h2 : jsRem (30 : ℝ) 360 = 30 := by
    rw [jsRem, h1]
    norm_num
  have h3 : realTrunc ((390 : ℝ) / 360) = 1 := by
    rw [realTrunc_nonneg_eq_floor (by norm_num)]
    rw [Int.floor_eq_iff] <;> norm_num
  rw [jsNormalizeDeg, h2]
  rw [show (30 : ℝ) + 360 = 390 by norm_num, jsRem, h3]
  norm_num

theorem jsNormalizeDeg_zero : jsNormalizeDeg (0 : ℝ) = 0 := by
  have h1 : jsRem (0 : ℝ) 360 = 0 := jsRem_zero_left 360
  have h3 : realTrunc ((360 : ℝ) / 360) = 1 := by
    rw [realTrunc_nonneg_eq_floor (by norm_num)]
    rw [Int.floor_eq_iff] <;> norm_num
  rw [jsNormalizeDeg, h1]
  rw [show (0 : ℝ) + 360 = 360 by norm_num, jsRem, h3]
  norm_num

/-- RCS profile with three distinct sector values. -/
def c10Profile : RCSAspect :=
  ⟨5, 4, 3⟩

/-- C10 counterexample: azimuth 30° normalises to 30, which the claim's
closed nose sector `[-30°, +30°]` contains, yet `getRCSAtAspect` returns
the side RCS, not the nose RCS (both strict comparisons fail at the
boundary). -/
theorem c10_rcs_boundary_counterexample :
    jsNormalizeDeg (30 : ℝ) = 30 ∧
    Fighter.getRCSAtAspect c10Profile 30 = c10Profile.side ∧
    c10Profile.side ≠ c10Profile.nose := by
  refine ⟨jsNormalizeDeg_thirty, ?_, by simp [c10Profile]⟩
  rw [Fighter.getRCSAtAspect]
  rw [jsNormalizeDeg_thirty]
  norm_num

/-- C10 amended: with the sector boundaries strict — nose for normalised
angles strictly inside `(-30°, 30°)` (that is, below 30 or above 330 after
normalisation), tail strictly inside `(150°, 210°)` — `getRCSAtAspect`
returns the nose, tail and side RCS respectively; every boundary angle
itself (30°, 150°, 210°, 330°) falls to the side sector. -/
theorem c10_rcs_sectors_amended (rcs : RCSAspect) (az : ℝ) :
    (jsNormalizeDeg az < 30 ∨ 330 < jsNormalizeDeg az →
      Fighter.getRCSAtAspect rcs az = rcs.nose) ∧
    (150 < jsNormalizeDeg az ∧ jsNormalizeDeg az < 210 →
      Fighter.getRCSAtAspect rcs az = rcs.tail) ∧
    (30 ≤ jsNormalizeDeg az ∧ jsNormalizeDeg az ≤ 150 ∨
        210 ≤ jsNormalizeDeg az ∧ jsNormalizeDeg az ≤ 330 →
      Fighter.getRCSAtAspect rcs az = rcs.side) := by
  rw [Fighter.getRCSAtAspect]
  refine ⟨fun h => ?_, fun h => ?_, fun h => ?_⟩
  · rw [if_pos h]
  · obtain ⟨h1, h2⟩ := h
    rw [if_neg (by push_neg; exact ⟨by linarith, by linarith⟩)]
    rw [if_pos ⟨h1, h2⟩]
  · rcases h with ⟨h1, h2⟩ | ⟨h1, h2⟩
    · rw [if_neg (by push_neg; exact ⟨by linarith, by linarith⟩)]
      rw [if_neg (by push_neg; intro h3; linarith)]
    · rw [if_neg (by push_neg; exact ⟨by linarith, by linarith⟩)]
      rw [if_neg (by push_neg; intro h3; linarith)]

/-- Closed witness for `c10_rcs_sectors_amended` at azimuth 0°. -/
theorem c10_rcs_sectors_witness :
    jsNormalizeDeg (0 : ℝ) < 30 ∧
    Fighter.getRCSAtAspect c10Profile 0 = c10Profile.nose := by
  have h : jsNormalizeDeg (0 : ℝ) < 30 := by rw [jsNormalizeDeg_zero]; norm_num
  exact ⟨h, (c10_rcs_sectors_amended c10Profile 0).1 (Or.inl h)⟩

/-! ## C8 -/

/-- C8: `calculateDetectionRange(rcs, pulses, range)` equals
`range · 10^(gain/40) · (rcs/1)^0.25` with the pulse-integration gain
`10·log10(√N)` in coherent mode and `10·log10(N^0.7)` in non-coherent mode,
and in particular equals `2·range` at `rcs = 16`, `pulses = 1`. -/
theorem c8_detection_range_formula :
    (∀ (mode : PulseMode) (rcs pulses range : ℝ),
        Radar.calculateDetectionRange mode rcs pulses range =
          range *
            (10 : ℝ) ^ (Radar.calculatePulseIntegrationGain mode pulses / 40) *
              (rcs / 1) ^ (0.25 : ℝ)) ∧
    (∀ pulses : ℝ,
        Radar.calculatePulseIntegrationGain .coherent pulses =
          10 * Real.logb 10 (Real.sqrt pulses) ∧
        Radar.calculatePulseIntegrationGain .noncoherent pulses =
          10 * Real.logb 10 (pulses ^ (0.7 : ℝ))) ∧
    (∀ (mode : PulseMode) (range : ℝ),
        Radar.calculateDetectionRange mode 16 1 range = 2 * range) := by
  have hpow : ∀ g : ℝ, ((10 : ℝ) ^ (g / 10)) ^ (0.25 : ℝ) = (10 : ℝ) ^ (g / 40) := by
    intro g
    rw [← Real.rpow_mul (by norm_num : (0 : ℝ) ≤ 10)]
    norm_num
    ring_nf
  have hgain1 : ∀ mode : PulseMode, Radar.calculatePulseIntegrationGain mode 1 = 0 := by
    intro mode
    cases mode <;>
      simp [Radar.calculatePulseIntegrationGain, Radar.wattsToDecibels, Real.one_rpow]
  have h16 : (16 : ℝ) ^ (0.25 : ℝ) = 2 := by
    rw [show (16 : ℝ) = 2 ^ (4 : ℝ) by norm_num [Real.rpow_natCast]]
    rw [← Real.rpow_mul (by norm_num : (0 : ℝ) ≤ 2)]
    norm_num
  refine ⟨?_, ?_, ?_⟩
  · intro mode rcs pulses range
    rw [Radar.calculateDetectionRange, Radar.rangeDeltaFromDecibels,
      Radar.decibelsToWatts, hpow]
  · intro pulses
    exact ⟨rfl, rfl⟩
  · intro mode range
    rw [Radar.calculateDetectionRange, hgain1, Radar.rangeDeltaFromDecibels,
      Radar.decibelsToWatts]
    rw [show (0 : ℝ) / 10 = 0 by norm_num, Real.rpow_zero, Real.one_rpow]
    rw [show (16 : ℝ) / 1 = 16 by norm_num, h16]
    ring

/-! ## C7 -/

theorem QuadTree.mem_allItems_of_mem_queryRange {α : Type} {t : QuadTree α}
    {c : Point} {r : ℝ} {it : QItem α} (h : it ∈ t.queryRange c r) :
    it ∈ t.allItems := by
  induction t with
  | leaf b cap items =>
    rw [QuadTree.queryRange] at h
    rw [QuadTree.allItems]
    split at h
    · simp at h
    · exact (List.mem_filter.1 h).1
  | divided b cap items ne nw se sw ihne ihnw ihse ihsw =>
    rw [QuadTree.queryRange] at h
    rw [QuadTree.allItems]
    split at h
    · simp at h
    · simp only [List.mem_append] at h ⊢
      rcases h with ((((h | h) | h) | h) | h)
      · exact Or.inl (Or.inl (Or.inl (Or.inl (List.mem_filter.1 h).1)))
      · exact Or.inl (Or.inl (Or.inl (Or.inr (ihne h))))
      · exact Or.inl (Or.inl (Or.inr (ihnw h)))
      · exact Or.inl (Or.inr (ihse h))
      · exact Or.inr (ihsw h)

theorem rainFold_eq_init (x y : ℝ) :
    ∀ (l : List (QItem PrecipitationCell)) (a : ℝ),
      (∀ it ∈ l, ¬ it.data.isInRange x y) →
      l.foldl
        (fun acc it =>
          if it.data.isInRange x y then
            acc + it.data.getRainRateAt x y *
              Real.exp (-(dist2D ⟨x, y⟩ it.data.center) /
                (2 * (it.data.alpha * it.data.size) * (it.data.alpha * it.data.size)))
          else acc)
        a = a := by
  intro l
  induction l with
  | nil => intro a _; rfl
  | cons hd tl ih =>
    intro a h
    rw [List.foldl_cons, if_neg (h hd (by simp))]
    exact ih a fun it hit => h it (by simp [hit])

/-- C7: `sampleRainRate(x, y)` never exceeds 50 mm/hr no matter how many
cells overlap, and returns 0 whenever no generated cell's in-range
predicate holds at the position (the first hypothesis of the second part is
the generation invariant: every payload stored in the index is one of the
field's cells). -/
theorem c7_sample_rain_rate_cap (fld : SyntheticPrecipitationField) (x y : ℝ) :
    fld.sampleRainRate x y ≤ 50 ∧
    ((∀ it ∈ fld.quadTree.allItems, it.data ∈ fld.cells) →
      (∀ c ∈ fld.cells, ¬ c.isInRange x y) →
      fld.sampleRainRate x y = 0) := by
  constructor
  · rw [SyntheticPrecipitationField.sampleRainRate]
    split
    · norm_num
    · exact min_le_right _ _
  · intro hSub hNone
    rw [SyntheticPrecipitationField.sampleRainRate]
    split
    · rfl
    · rw [rainFold_eq_init x y _ 0 fun it hit =>
        hNone it.data (hSub it (QuadTree.mem_allItems_of_mem_queryRange hit))]
      norm_num

/-- Empty concrete precipitation field. -/
def c7SampleField : SyntheticPrecipitationField :=
  { config := ⟨1⟩
    cells := []
    quadTree := QuadTree.emptyLeaf ⟨5, 5, 5, 5⟩ 4 }

/-- Closed witness for `c7_sample_rain_rate_cap` at the origin of an empty
field. -/
theorem c7_sample_rain_rate_cap_witness :
    (∀ it ∈ c7SampleField.quadTree.allItems, it.data ∈ c7SampleField.cells) ∧
    (∀ c ∈ c7SampleField.cells, ¬ c.isInRange 0 0) ∧
    c7SampleField.sampleRainRate 0 0 = 0 ∧
    c7SampleField.sampleRainRate 0 0 ≤ 50 := by
  have h1 : ∀ it ∈ c7SampleField.quadTree.allItems, it.data ∈ c7SampleField.cells := by
    intro it hit
    simp [c7SampleField, QuadTree.emptyLeaf, QuadTree.allItems] at hit
  have h2 : ∀ c ∈ c7SampleField.cells, ¬ c.isInRange 0 0 := by
    intro c hc
    simp [c7SampleField] at hc
  exact ⟨h1, h2, (c7_sample_rain_rate_cap c7SampleField 0 0).2 h1 h2,
    (c7_sample_rain_rate_cap c7SampleField 0 0).1⟩

/-! ## C9 -/

/-- Test for a fighter-launched missile (a HARM). -/
def isFighterLaunched (m : TMissile) : Bool :=
  decide (m.launchedBy = Owner.fighter)

/-- Number of HARMs in the simulator's missile list. -/
def fighterMissileCount (s : SimState) : ℕ :=
  s.missiles.countP isFighterLaunched

/-- The condition under which the step spawns a HARM, phrased over the
pre-step state: `shouldLaunchHARM` comes back `true` for the current
distance, MEMR and this step's tracking outcome, and the fighter still has
ammunition. -/
def Scenario.harmGate (s : SimState) : Prop :=
  Fighter.shouldLaunchHARM s.fighter.harmRange
      (Scenario.getDistanceSAMToFighter s) s.samSystem.memr
      (Scenario.isFighterDetected s) = some true ∧
    0 < s.fighter.missilesRemaining

theorem trackingPhase_missiles (b : Bool) (s : SimState) :
    (Scenario.trackingPhase b s).missiles = s.missiles := by
  unfold Scenario.trackingPhase
  split <;> rfl

theorem trackingPhase_fighter (b : Bool) (s : SimState) :
    (Scenario.trackingPhase b s).fighter = s.fighter := by
  unfold Scenario.trackingPhase
  split <;> rfl

theorem trackingPhase_heap (b : Bool) (s : SimState) :
    (Scenario.trackingPhase b s).heap = s.heap := by
  unfold Scenario.trackingPhase
  split <;> rfl

theorem trackingPhase_memr (b : Bool) (s : SimState) :
    (Scenario.trackingPhase b s).samSystem.memr = s.samSystem.memr := by
  unfold Scenario.trackingPhase
  split <;> rfl

theorem trackingPhase_harmRange (b : Bool) (s : SimState) :
    (Scenario.trackingPhase b s).fighter.harmRange = s.fighter.harmRange := by
  rw [trackingPhase_fighter]

theorem trackingPhase_track (b : Bool) (s : SimState) :
    (Scenario.trackingPhase b s).samSystem.trackingStatus.status =
      (if b then TrackStatus.tracking else TrackStatus.notTracking) := by
  unfold Scenario.trackingPhase
  cases b <;> simp

theorem samLaunchPhase_fighter (b : Bool) (d az : ℝ) (s : SimState) :
    (Scenario.samLaunchPhase b d az s).fighter = s.fighter := by
  unfold Scenario.samLaunchPhase
  split <;> rfl

theorem samLaunchPhase_heap (b : Bool) (d az : ℝ) (s : SimState) :
    (Scenario.samLaunchPhase b d az s).heap = s.heap := by
  unfold Scenario.samLaunchPhase
  split <;> rfl

theorem samLaunchPhase_memr (b : Bool) (d az : ℝ) (s : SimState) :
    (Scenario.samLaunchPhase b d az s).samSystem.memr = s.samSystem.memr := by
  unfold Scenario.samLaunchPhase
  split <;> rfl

theorem samLaunchPhase_track (b : Bool) (d az : ℝ) (s : SimState) :
    (Scenario.samLaunchPhase b d az s).samSystem.trackingStatus =
      s.samSystem.trackingStatus := by
  unfold Scenario.samLaunchPhase
  split <;> rfl

theorem samLaunchPhase_countP (b : Bool) (d az : ℝ) (s : SimState) :
    (Scenario.samLaunchPhase b d az s).missiles.countP isFighterLaunched =
      s.missiles.countP isFighterLaunched := by
  unfold Scenario.samLaunchPhase
  split
  · simp [List.countP_append, createMissile, isFighterLaunched]
  · rfl

theorem harmLaunchPhase_countP (s : SimState) :
    (Scenario.harmLaunchPhase s).missiles.countP isFighterLaunched =
      s.missiles.countP isFighterLaunched +
        (if Scenario.shouldFighterLaunchHARM s = some true ∧
            0 < s.fighter.missilesRemaining then 1 else 0) := by
  unfold Scenario.harmLaunchPhase
  split
  · simp [List.countP_append, createMissile, isFighterLaunched]
  · simp

theorem harmLaunchPhase_ammo (s : SimState) :
    (Scenario.harmLaunchPhase s).fighter.missilesRemaining =
      (if Scenario.shouldFighterLaunchHARM s = some true ∧
          0 < s.fighter.missilesRemaining then
        s.fighter.missilesRemaining - 1
      else s.fighter.missilesRemaining) := by
  unfold Scenario.harmLaunchPhase
  split <;> rfl

theorem pursuitHeading_launchedBy (h : Heap) (dt : ℝ) (m : TMissile) :
    (Scenario.pursuitHeading h dt m).launchedBy = m.launchedBy := by
  simp only [Scenario.pursuitHeading]
  split <;> rfl

theorem countP_mapIdx_of_preserve {β : Type} (p : β → Bool) :
    ∀ (l : List β) (f : ℕ → β → β), (∀ i m, p (f i m) = p m) →
      (l.mapIdx f).countP p = l.countP p := by
  intro l
  induction l with
  | nil => intro f _; rfl
  | cons hd tl ih =>
    intro f hf
    rw [List.mapIdx_cons, List.countP_cons, List.countP_cons, hf,
      ih _ fun i m => hf (i + 1) m]

theorem missileHeadingPhase_countP (rng : ℕ → ℝ) (s : SimState) :
    (Scenario.missileHeadingPhase rng s).missiles.countP isFighterLaunched =
      s.missiles.countP isFighterLaunched := by
  unfold Scenario.missileHeadingPhase
  refine countP_mapIdx_of_preserve _ _ _ fun i m => ?_
  unfold isFighterLaunched
  split
  · split
    · rfl
    · rw [pursuitHeading_launchedBy]
  · rfl

theorem evasivePhase_missiles (s : SimState) :
    (Scenario.evasivePhase s).missiles = s.missiles := by
  unfold Scenario.evasivePhase
  split
  · dsimp only
    split <;> rfl
  · rfl

theorem evasivePhase_ammo (s : SimState) :
    (Scenario.evasivePhase s).fighter.missilesRemaining =
      s.fighter.missilesRemaining := by
  unfold Scenario.evasivePhase
  split
  · dsimp only
    split <;> rfl
  · rfl

theorem fighterMovePhase_missiles (s : SimState) :
    (Scenario.fighterMovePhase s).missiles = s.missiles := by
  unfold Scenario.fighterMovePhase Scenario.updateFighterPosition
  split <;> rfl

theorem fighterMovePhase_fighter (s : SimState) :
    (Scenario.fighterMovePhase s).fighter = s.fighter := by
  unfold Scenario.fighterMovePhase Scenario.updateFighterPosition
  split <;> rfl

theorem killFold_step (h : Heap) (te : ℝ)
    (acc : List TMissile × FighterState × SAMSystemState × Bool)
    (m : TMissile) :
    ((Scenario.killFold h te acc m).1).countP isFighterLaunched =
        (acc.1).countP isFighterLaunched +
          (if isFighterLaunched m then 1 else 0) ∧
      ((Scenario.killFold h te acc m).2.1).missilesRemaining =
        (acc.2.1).missilesRemaining := by
  unfold Scenario.killFold
  by_cases h1 : m.status = MissileStatus.active
  · by_cases h2 : Scenario.checkMissileIntercept (heapGet h m.posPtr)
        (heapGet h m.target) (heapGet h m.posPtr) m.launchedBy = true
    · simp only [if_pos h1, if_pos h2]
      cases htgt : m.target <;>
        simp [List.countP_append, List.countP_cons, isFighterLaunched]
    · simp only [if_pos h1, if_neg h2]
      by_cases h3 : ¬ m.maxRange = 0 ∧
          m.maxRange ≤ m.velocity * (te - m.timeOfLaunch)
      · simp only [if_pos h3]
        simp [List.countP_append, List.countP_cons, isFighterLaunched]
      · simp only [if_neg h3]
        simp [List.countP_append, List.countP_cons, isFighterLaunched]
  · simp only [if_neg h1]
    simp [List.countP_append, List.countP_cons, isFighterLaunched]

theorem killFold_countP (h : Heap) (te : ℝ) :
    ∀ (l : List TMissile)
      (acc : List TMissile × FighterState × SAMSystemState × Bool),
      ((l.foldl (Scenario.killFold h te) acc).1).countP isFighterLaunched =
        (acc.1).countP isFighterLaunched + l.countP isFighterLaunched := by
  intro l
  induction l with
  | nil => intro acc; simp
  | cons hd tl ih =>
    intro acc
    rw [List.foldl_cons, List.countP_cons, ih, (killFold_step h te acc hd).1]
    omega

theorem killFold_ammo (h : Heap) (te : ℝ) :
    ∀ (l : List TMissile)
      (acc : List TMissile × FighterState × SAMSystemState × Bool),
      ((l.foldl (Scenario.killFold h te) acc).2.1).missilesRemaining =
        (acc.2.1).missilesRemaining := by
  intro l
  induction l with
  | nil => intro acc; rfl
  | cons hd tl ih =>
    intro acc
    rw [List.foldl_cons, ih, (killFold_step h te acc hd).2]

theorem killPhase_countP (s : SimState) :
    ((Scenario.killPhase s).1).missiles.countP isFighterLaunched =
      s.missiles.countP isFighterLaunched := by
  unfold Scenario.killPhase
  rw [show (({ s with
      missiles := (s.missiles.foldl (Scenario.killFold s.heap s.timeElapsed)
        ([], s.fighter, s.samSystem, false)).1 } : SimState)).missiles =
      (s.missiles.foldl (Scenario.killFold s.heap s.timeElapsed)
        ([], s.fighter, s.samSystem, false)).1 from rfl]
  rw [killFold_countP s.heap s.timeElapsed s.missiles
    ([], s.fighter, s.samSystem, false)]
  simp

theorem killPhase_ammo (s : SimState) :
    ((Scenario.killPhase s).1).fighter.missilesRemaining =
      s.fighter.missilesRemaining := by
  unfold Scenario.killPhase
  exact killFold_ammo s.heap s.timeElapsed s.missiles
    ([], s.fighter, s.samSystem, false)

theorem missilePositionPhase_missiles (s : SimState) :
    (Scenario.missilePositionPhase s).missiles = s.missiles :=
  rfl

theorem missilePositionPhase_fighter (s : SimState) :
    (Scenario.missilePositionPhase s).fighter = s.fighter :=
  rfl

theorem missileHeadingPhase_fighter (rng : ℕ → ℝ) (s : SimState) :
    (Scenario.missileHeadingPhase rng s).fighter = s.fighter :=
  rfl

theorem shouldFighterLaunchHARM_after (b : Bool) (d az : ℝ) (s : SimState) :
    Scenario.shouldFighterLaunchHARM
        (Scenario.samLaunchPhase b d az (Scenario.trackingPhase b s)) =
      Fighter.shouldLaunchHARM s.fighter.harmRange
        (Scenario.getDistanceSAMToFighter s) s.samSystem.memr b := by
  unfold Scenario.shouldFighterLaunchHARM
  have hheap : (Scenario.samLaunchPhase b d az
      (Scenario.trackingPhase b s)).heap = s.heap := by
    rw [samLaunchPhase_heap, trackingPhase_heap]
  have hdist : Scenario.getDistanceSAMToFighter
      (Scenario.samLaunchPhase b d az (Scenario.trackingPhase b s)) =
      Scenario.getDistanceSAMToFighter s := by
    unfold Scenario.getDistanceSAMToFighter
    rw [hheap]
  rw [samLaunchPhase_fighter, trackingPhase_fighter, hdist, samLaunchPhase_memr,
    trackingPhase_memr, samLaunchPhase_track, trackingPhase_track]
  cases b <;> simp

/-- C9: `shouldLaunchHARM` is `true` exactly when the SAM is tracking, the
distance is within the SAM's MEMR and the HARM's own range is strictly
below the distance; with the SAM not tracking it falls through to
`undefined` (`none`), treated as no-launch.  In the step, a HARM is added
to the missile list exactly when that predicate (evaluated at this step's
tracking outcome) is `true` and ammunition remains, in which case the
fighter's ammunition drops by one — so once it reaches 0 no later step
spawns another HARM. -/
theorem c9_harm_launch_gate (rng : ℕ → ℝ) (s : SimState) :
    (∀ hr d memr : ℝ,
        (Fighter.shouldLaunchHARM hr d memr true = some true ↔
          d ≤ memr ∧ hr < d)) ∧
    (∀ hr d memr : ℝ, Fighter.shouldLaunchHARM hr d memr false = none) ∧
    fighterMissileCount (Scenario.advanceSimulationTimeStep rng s) =
      fighterMissileCount s + (if Scenario.harmGate s then 1 else 0) ∧
    (Scenario.advanceSimulationTimeStep rng s).fighter.missilesRemaining =
      (if Scenario.harmGate s then s.fighter.missilesRemaining - 1
       else s.fighter.missilesRemaining) := by
  refine ⟨?_, ?_, ?_, ?_⟩
  · intro hr d memr
    unfold Fighter.shouldLaunchHARM
    by_cases hc : d ≤ memr ∧ hr < d
    · simp [hc]
    · simp [hc]
  · intro hr d memr
    rfl
  · unfold fighterMissileCount
    simp only [Scenario.advanceSimulationTimeStep]
    split <;>
      (dsimp only
       rw [killPhase_countP, fighterMovePhase_missiles, evasivePhase_missiles,
         missilePositionPhase_missiles, missileHeadingPhase_countP,
         harmLaunchPhase_countP, samLaunchPhase_countP, trackingPhase_missiles]
       rw [shouldFighterLaunchHARM_after, samLaunchPhase_fighter,
         trackingPhase_fighter]
       congr 1
       exact if_congr Iff.rfl rfl rfl)
  · simp only [Scenario.advanceSimulationTimeStep]
    split <;>
      (dsimp only
       rw [killPhase_ammo, fighterMovePhase_fighter, evasivePhase_ammo,
         missilePositionPhase_fighter, missileHeadingPhase_fighter,
         harmLaunchPhase_ammo]
       rw [shouldFighterLaunchHARM_after, samLaunchPhase_fighter,
         trackingPhase_fighter]
       exact if_congr Iff.rfl rfl rfl)

/-! ## C6 -/

namespace QuadTree

variable {α : Type}

theorem containsPt_child {b : Bounds} {p : Point} (hW : 0 ≤ b.width)
    (hH : 0 ≤ b.height) (h : containsPt b p) :
    containsPt (neBounds b) p ∨ containsPt (nwBounds b) p ∨
      containsPt (seBounds b) p ∨ containsPt (swBounds b) p := by
  obtain ⟨h1, h2, h3, h4⟩ := h
  unfold containsPt neBounds nwBounds seBounds swBounds
  rcases le_or_lt b.x p.x with hx | hx <;> rcases le_or_lt b.y p.y with hy | hy
  · exact Or.inl ⟨by dsimp; linarith, by dsimp; linarith, by dsimp; linarith,
      by dsimp; linarith⟩
  · exact Or.inr (Or.inr (Or.inl ⟨by dsimp; linarith, by dsimp; linarith,
      by dsimp; linarith, by dsimp; linarith⟩))
  · exact Or.inr (Or.inl ⟨by dsimp; linarith, by dsimp; linarith,
      by dsimp; linarith, by dsimp; linarith⟩)
  · exact Or.inr (Or.inr (Or.inr ⟨by dsimp; linarith, by dsimp; linarith,
      by dsimp; linarith, by dsimp; linarith⟩))

theorem containsPt_of_ne {b : Bounds} {p : Point} (hW : 0 ≤ b.width)
    (hH : 0 ≤ b.height) (h : containsPt (neBounds b) p) : containsPt b p := by
  obtain ⟨h1, h2, h3, h4⟩ := h
  unfold containsPt neBounds at *
  dsimp at h1 h2 h3 h4
  exact ⟨by linarith, by linarith, by linarith, by linarith⟩

theorem containsPt_of_nw {b : Bounds} {p : Point} (hW : 0 ≤ b.width)
    (hH : 0 ≤ b.height) (h : containsPt (nwBounds b) p) : containsPt b p := by
  obtain ⟨h1, h2, h3, h4⟩ := h
  unfold containsPt nwBounds at *
  dsimp at h1 h2 h3 h4
  exact ⟨by linarith, by linarith, by linarith, by linarith⟩

theorem containsPt_of_se {b : Bounds} {p : Point} (hW : 0 ≤ b.width)
    (hH : 0 ≤ b.height) (h : containsPt (seBounds b) p) : containsPt b p := by
  obtain ⟨h1, h2, h3, h4⟩ := h
  unfold containsPt seBounds at *
  dsimp at h1 h2 h3 h4
  exact ⟨by linarith, by linarith, by linarith, by linarith⟩

theorem containsPt_of_sw {b : Bounds} {p : Point} (hW : 0 ≤ b.width)
    (hH : 0 ≤ b.height) (h : containsPt (swBounds b) p) : containsPt b p := by
  obtain ⟨h1, h2, h3, h4⟩ := h
  unfold containsPt swBounds at *
  dsimp at h1 h2 h3 h4
  exact ⟨by linarith, by linarith, by linarith, by linarith⟩

theorem insertFresh_fst {b : Bounds} {cap : ℕ} {p : Point} {d : α} :
    (insertFresh b cap p d).1 = true ↔ containsPt b p ∧ 0 < cap := by
  unfold insertFresh
  split <;> simp_all

theorem insertFresh_boundsOf {b : Bounds} {cap : ℕ} {p : Point} {d : α} :
    ((insertFresh b cap p d).2).boundsOf = b := by
  unfold insertFresh
  split <;> rfl

theorem insertFresh_capacityOf {b : Bounds} {cap : ℕ} {p : Point} {d : α} :
    ((insertFresh b cap p d).2).capacityOf = cap := by
  unfold insertFresh
  split <;> rfl

theorem insertFresh_WF {b : Bounds} {cap : ℕ} {p : Point} {d : α}
    (hW : 0 ≤ b.width) (hH : 0 ≤ b.height) (hcap : 0 < cap) :
    WF (insertFresh b cap p d).2 := by
  unfold insertFresh
  split
  · rename_i h
    exact ⟨hcap, hW, hH, fun it hit => by
      simp at hit
      rw [hit]
      exact h.1⟩
  · exact ⟨hcap, hW, hH, by simp⟩

theorem insertFresh_allItems {b : Bounds} {cap : ℕ} {p : Point} {d : α} :
    allItems (insertFresh b cap p d).2 =
      (if (insertFresh b cap p d).1 = true then [(⟨p, d⟩ : QItem α)] else []) := by
  unfold insertFresh
  split <;> simp [allItems]

theorem WF_emptyLeaf {b : Bounds} {cap : ℕ} (hW : 0 ≤ b.width)
    (hH : 0 ≤ b.height) (hcap : 0 < cap) : WF (emptyLeaf b cap : QuadTree α) :=
  ⟨hcap, hW, hH, by simp⟩

theorem allItems_emptyLeaf {b : Bounds} {cap : ℕ} :
    allItems (emptyLeaf b cap : QuadTree α) = [] :=
  rfl

theorem insert_boundsOf (t : QuadTree α) (p : Point) (d : α) :
    ((insert t p d).2).boundsOf = t.boundsOf := by
  cases t with
  | leaf b cap items =>
    simp only [insert]
    repeat' split
    all_goals rfl
  | divided b cap items ne nw se sw =>
    simp only [insert]
    repeat' split
    all_goals rfl

theorem insert_capacityOf (t : QuadTree α) (p : Point) (d : α) :
    ((insert t p d).2).capacityOf = t.capacityOf := by
  cases t with
  | leaf b cap items =>
    simp only [insert]
    repeat' split
    all_goals rfl
  | divided b cap items ne nw se sw =>
    simp only [insert]
    repeat' split
    all_goals rfl

theorem insert_of_not_contains {t : QuadTree α} {p : Point} (d : α)
    (h : ¬ containsPt t.boundsOf p) : insert t p d = (false, t) := by
  cases t with
  | leaf b cap items =>
    simp only [insert]
    rw [if_pos (by exact h)]
  | divided b cap items ne nw se sw =>
    simp only [insert]
    rw [if_pos (by exact h)]

theorem insert_fst_eq_true (p : Point) (d : α) :
    ∀ t : QuadTree α, WF t → ((insert t p d).1 = true ↔ containsPt t.boundsOf p) := by
  intro t
  induction t with
  | leaf b cap items =>
    intro hWF
    obtain ⟨hcap, hW, hH, hitems⟩ := hWF
    constructor
    · intro h
      by_contra hc
      rw [insert_of_not_contains d (by simpa using hc)] at h
      simp at h
    · intro hcont
      replace hcont : containsPt b p := hcont
      simp only [insert]
      rw [if_neg (not_not_intro hcont)]
      by_cases hlen : items.length < cap
      · rw [if_pos hlen]
      · rw [if_neg hlen]
        by_cases h1 : (insertFresh (neBounds b) cap p d).1 = true
        · rw [if_pos h1]
        · rw [if_neg h1]
          by_cases h2 : (insertFresh (nwBounds b) cap p d).1 = true
          · rw [if_pos h2]
          · rw [if_neg h2]
            by_cases h3 : (insertFresh (seBounds b) cap p d).1 = true
            · rw [if_pos h3]
            · rw [if_neg h3]
              rcases containsPt_child hW hH hcont with hc | hc | hc | hc
              · exact absurd (insertFresh_fst.mpr ⟨hc, hcap⟩) h1
              · exact absurd (insertFresh_fst.mpr ⟨hc, hcap⟩) h2
              · exact absurd (insertFresh_fst.mpr ⟨hc, hcap⟩) h3
              · exact insertFresh_fst.mpr ⟨hc, hcap⟩
  | divided b cap items ne nw se sw ihne ihnw ihse ihsw =>
    intro hWF
    obtain ⟨hcap, hW, hH, hitems, hbne, hbnw, hbse, hbsw, hcne, hcnw, hcse,
      hcsw, hwfne, hwfnw, hwfse, hwfsw⟩ := hWF
    constructor
    · intro h
      by_contra hc
      rw [insert_of_not_contains d (by simpa using hc)] at h
      simp at h
    · intro hcont
      replace hcont : containsPt b p := hcont
      simp only [insert]
      rw [if_neg (not_not_intro hcont)]
      by_cases hlen : items.length < cap
      · rw [if_pos hlen]
      · rw [if_neg hlen]
        by_cases h1 : (insert ne p d).1 = true
        · rw [if_pos h1]
        · rw [if_neg h1]
          by_cases h2 : (insert nw p d).1 = true
          · rw [if_pos h2]
          · rw [if_neg h2]
            by_cases h3 : (insert se p d).1 = true
            · rw [if_pos h3]
            · rw [if_neg h3]
              rcases containsPt_child hW hH hcont with hc | hc | hc | hc
              · exact absurd ((ihne hwfne).mpr (by rw [hbne]; exact hc)) h1
              · exact absurd ((ihnw hwfnw).mpr (by rw [hbnw]; exact hc)) h2
              · exact absurd ((ihse hwfse).mpr (by rw [hbse]; exact hc)) h3
              · exact (ihsw hwfsw).mpr (by rw [hbsw]; exact hc)

theorem WF_insert (p : Point) (d : α) :
    ∀ t : QuadTree α, WF t → WF (insert t p d).2 := by
  intro t
  induction t with
  | leaf b cap items =>
    intro hWF
    obtain ⟨hcap, hW, hH, hitems⟩ := hWF
    have hw2 : (0 : ℝ) ≤ b.width / 2 := by linarith
    have hh2 : (0 : ℝ) ≤ b.height / 2 := by linarith
    simp only [insert]
    by_cases hcont : containsPt b p
    · rw [if_neg (not_not_intro hcont)]
      by_cases hlen : items.length < cap
      · rw [if_pos hlen]
        refine ⟨hcap, hW, hH, fun it hit => ?_⟩
        rcases List.mem_append.1 hit with h | h
        · exact hitems it h
        · simp at h
          rw [h]
          exact hcont
      · rw [if_neg hlen]
        by_cases h1 : (insertFresh (neBounds b) cap p d).1 = true
        · rw [if_pos h1]
          exact ⟨hcap, hW, hH, hitems, insertFresh_boundsOf, rfl, rfl, rfl,
            insertFresh_capacityOf, rfl, rfl, rfl, insertFresh_WF hw2 hh2 hcap,
            WF_emptyLeaf hw2 hh2 hcap, WF_emptyLeaf hw2 hh2 hcap,
            WF_emptyLeaf hw2 hh2 hcap⟩
        · rw [if_neg h1]
          by_cases h2 : (insertFresh (nwBounds b) cap p d).1 = true
          · rw [if_pos h2]
            exact ⟨hcap, hW, hH, hitems, rfl, insertFresh_boundsOf, rfl, rfl,
              rfl, insertFresh_capacityOf, rfl, rfl, WF_emptyLeaf hw2 hh2 hcap,
              insertFresh_WF hw2 hh2 hcap, WF_emptyLeaf hw2 hh2 hcap,
              WF_emptyLeaf hw2 hh2 hcap⟩
          · rw [if_neg h2]
            by_cases h3 : (insertFresh (seBounds b) cap p d).1 = true
            · rw [if_pos h3]
              exact ⟨hcap, hW, hH, hitems, rfl, rfl, insertFresh_boundsOf, rfl,
                rfl, rfl, insertFresh_capacityOf, rfl,
                WF_emptyLeaf hw2 hh2 hcap, WF_emptyLeaf hw2 hh2 hcap,
                insertFresh_WF hw2 hh2 hcap, WF_emptyLeaf hw2 hh2 hcap⟩
            · rw [if_neg h3]
              exact ⟨hcap, hW, hH, hitems, rfl, rfl, rfl, insertFresh_boundsOf,
                rfl, rfl, rfl, insertFresh_capacityOf,
                WF_emptyLeaf hw2 hh2 hcap, WF_emptyLeaf hw2 hh2 hcap,
                WF_emptyLeaf hw2 hh2 hcap, insertFresh_WF hw2 hh2 hcap⟩
    · rw [if_pos hcont]
      exact ⟨hcap, hW, hH, hitems⟩
  | divided b cap items ne nw se sw ihne ihnw ihse ihsw =>
    intro hWF
    obtain ⟨hcap, hW, hH, hitems, hbne, hbnw, hbse, hbsw, hcne, hcnw, hcse,
      hcsw, hwfne, hwfnw, hwfse, hwfsw⟩ := hWF
    simp only [insert]
    by_cases hcont : containsPt b p
    · rw [if_neg (not_not_intro hcont)]
      by_cases hlen : items.length < cap
      · rw [if_pos hlen]
        refine ⟨hcap, hW, hH, fun it hit => ?_, hbne, hbnw, hbse, hbsw, hcne,
          hcnw, hcse, hcsw, hwfne, hwfnw, hwfse, hwfsw⟩
        rcases List.mem_append.1 hit with h | h
        · exact hitems it h
        · simp at h
          rw [h]
          exact hcont
      · rw [if_neg hlen]
        by_cases h1 : (insert ne p d).1 = true
        · rw [if_pos h1]
          exact ⟨hcap, hW, hH, hitems, (insert_boundsOf ne p d).trans hbne,
            hbnw, hbse, hbsw, (insert_capacityOf ne p d).trans hcne, hcnw,
            hcse, hcsw, ihne hwfne, hwfnw, hwfse, hwfsw⟩
        · rw [if_neg h1]
          by_cases h2 : (insert nw p d).1 = true
          · rw [if_pos h2]
            exact ⟨hcap, hW, hH, hitems, hbne,
              (insert_boundsOf nw p d).trans hbnw, hbse, hbsw, hcne,
              (insert_capacityOf nw p d).trans hcnw, hcse, hcsw, hwfne,
              ihnw hwfnw, hwfse, hwfsw⟩
          · rw [if_neg h2]
            by_cases h3 : (insert se p d).1 = true
            · rw [if_pos h3]
              exact ⟨hcap, hW, hH, hitems, hbne, hbnw,
                (insert_boundsOf se p d).trans hbse, hbsw, hcne, hcnw,
                (insert_capacityOf se p d).trans hcse, hcsw, hwfne, hwfnw,
                ihse hwfse, hwfsw⟩
            · rw [if_neg h3]
              exact ⟨hcap, hW, hH, hitems, hbne, hbnw, hbse,
                (insert_boundsOf sw p d).trans hbsw, hcne, hcnw, hcse,
                (insert_capacityOf sw p d).trans hcsw, hwfne, hwfnw, hwfse,
                ihsw hwfsw⟩
    · rw [if_pos hcont]
      exact ⟨hcap, hW, hH, hitems, hbne, hbnw, hbse, hbsw, hcne, hcnw, hcse,
        hcsw, hwfne, hwfnw, hwfse, hwfsw⟩

theorem length_allItems_insert (p : Point) (d : α) :
    ∀ t : QuadTree α, WF t →
      (allItems (insert t p d).2).length =
        (allItems t).length + (if (insert t p d).1 = true then 1 else 0) := by
  intro t
  induction t with
  | leaf b cap items =>
    intro hWF
    obtain ⟨hcap, hW, hH, hitems⟩ := hWF
    simp only [insert]
    by_cases hcont : containsPt b p
    · rw [if_neg (not_not_intro hcont)]
      by_cases hlen : items.length < cap
      · rw [if_pos hlen]
        simp [allItems]
      · rw [if_neg hlen]
        by_cases h1 : (insertFresh (neBounds b) cap p d).1 = true
        · rw [if_pos h1]
          simp [allItems, insertFresh_allItems, h1, emptyLeaf]
        · rw [if_neg h1]
          by_cases h2 : (insertFresh (nwBounds b) cap p d).1 = true
          · rw [if_pos h2]
            simp [allItems, insertFresh_allItems, h1, h2, emptyLeaf]
          · rw [if_neg h2]
            by_cases h3 : (insertFresh (seBounds b) cap p d).1 = true
            · rw [if_pos h3]
              simp [allItems, insertFresh_allItems, h1, h2, h3, emptyLeaf]
            · rw [if_neg h3]
              by_cases h4 : (insertFresh (swBounds b) cap p d).1 = true
              · simp [allItems, insertFresh_allItems, h1, h2, h3, h4, emptyLeaf]
              · simp [allItems, insertFresh_allItems, h1, h2, h3, h4, emptyLeaf]
    · rw [if_pos hcont]
      simp
  | divided b cap items ne nw se sw ihne ihnw ihse ihsw =>
    intro hWF
    obtain ⟨hcap, hW, hH, hitems, hbne, hbnw, hbse, hbsw, hcne, hcnw, hcse,
      hcsw, hwfne, hwfnw, hwfse, hwfsw⟩ := hWF
    simp only [insert]
    by_cases hcont : containsPt b p
    · rw [if_neg (not_not_intro hcont)]
      by_cases hlen : items.length < cap
      · rw [if_pos hlen]
        simp [allItems]
        omega
      · rw [if_neg hlen]
        by_cases h1 : (insert ne p d).1 = true
        · rw [if_pos h1]
          have := ihne hwfne
          rw [if_pos h1] at this
          simp [allItems, this]
          omega
        · rw [if_neg h1]
          by_cases h2 : (insert nw p d).1 = true
          · rw [if_pos h2]
            have := ihnw hwfnw
            rw [if_pos h2] at this
            simp [allItems, this]
            omega
          · rw [if_neg h2]
            by_cases h3 : (insert se p d).1 = true
            · rw [if_pos h3]
              have := ihse hwfse
              rw [if_pos h3] at this
              simp [allItems, this]
              omega
            · rw [if_neg h3]
              have := ihsw hwfsw
              by_cases h4 : (insert sw p d).1 = true
              · rw [if_pos h4] at this
                simp [allItems, this, h4]
                omega
              · rw [if_neg h4] at this
                simp [allItems, this, h4]
    · rw [if_pos hcont]
      simp

theorem dist_le_of_mem_queryRange {c : Point} {r : ℝ} :
    ∀ {t : QuadTree α} {it : QItem α}, it ∈ queryRange t c r →
      dist2D it.point c ≤ r := by
  intro t
  induction t with
  | leaf b cap items =>
    intro it h
    rw [queryRange] at h
    split at h
    · simp at h
    · exact of_decide_eq_true (List.mem_filter.1 h).2
  | divided b cap items ne nw se sw ihne ihnw ihse ihsw =>
    intro it h
    rw [queryRange] at h
    split at h
    · simp at h
    · simp only [List.mem_append] at h
      rcases h with ((((h | h) | h) | h) | h)
      · exact of_decide_eq_true (List.mem_filter.1 h).2
      · exact ihne h
      · exact ihnw h
      · exact ihse h
      · exact ihsw h

theorem intersectsCircle_of_covering {b : Bounds} {c : Point} {r : ℝ}
    (hW : 0 ≤ b.width) (hH : 0 ≤ b.height)
    (hcov : ∀ q : Point, containsPt b q → dist2D q c ≤ r) :
    intersectsCircle b c r := by
  unfold intersectsCircle
  exact hcov _ ⟨le_max_left _ _,
    max_le (by linarith) (min_le_right _ _), le_max_left _ _,
    max_le (by linarith) (min_le_right _ _)⟩

theorem queryRange_eq_allItems {c : Point} {r : ℝ} :
    ∀ t : QuadTree α, WF t →
      (∀ q : Point, containsPt t.boundsOf q → dist2D q c ≤ r) →
      queryRange t c r = allItems t := by
  intro t
  induction t with
  | leaf b cap items =>
    intro hWF hcov
    obtain ⟨hcap, hW, hH, hitems⟩ := hWF
    replace hcov : ∀ q : Point, containsPt b q → dist2D q c ≤ r := hcov
    rw [queryRange, allItems,
      if_neg (not_not_intro (intersectsCircle_of_covering hW hH hcov))]
    exact List.filter_eq_self.mpr fun a ha =>
      decide_eq_true (hcov a.point (hitems a ha))
  | divided b cap items ne nw se sw ihne ihnw ihse ihsw =>
    intro hWF hcov
    obtain ⟨hcap, hW, hH, hitems, hbne, hbnw, hbse, hbsw, hcne, hcnw, hcse,
      hcsw, hwfne, hwfnw, hwfse, hwfsw⟩ := hWF
    replace hcov : ∀ q : Point, containsPt b q → dist2D q c ≤ r := hcov
    rw [queryRange, allItems,
      if_neg (not_not_intro (intersectsCircle_of_covering hW hH hcov))]
    rw [ihne hwfne fun q hq => hcov q (containsPt_of_ne hW hH (hbne ▸ hq))]
    rw [ihnw hwfnw fun q hq => hcov q (containsPt_of_nw hW hH (hbnw ▸ hq))]
    rw [ihse hwfse fun q hq => hcov q (containsPt_of_se hW hH (hbse ▸ hq))]
    rw [ihsw hwfsw fun q hq => hcov q (containsPt_of_sw hW hH (hbsw ▸ hq))]
    rw [List.filter_eq_self.mpr fun a ha =>
      decide_eq_true (hcov a.point (hitems a ha))]

theorem insertList_facts :
    ∀ (l : List (Point × α)) (t : QuadTree α), WF t →
      (∀ pr ∈ l, containsPt t.boundsOf pr.1) →
      WF (insertList t l) ∧ (insertList t l).boundsOf = t.boundsOf ∧
        (allItems (insertList t l)).length = (allItems t).length + l.length := by
  intro l
  induction l with
  | nil =>
    intro t hWF _
    exact ⟨hWF, rfl, by simp [insertList]⟩
  | cons pr rest ih =>
    intro t hWF hin
    have hc : containsPt t.boundsOf pr.1 := hin pr (by simp)
    have hWF2 := WF_insert pr.1 pr.2 t hWF
    have hb2 := insert_boundsOf t pr.1 pr.2
    obtain ⟨w1, w2, w3⟩ := ih (insert t pr.1 pr.2).2 hWF2
      fun q hq => by
        rw [hb2]
        exact hin q (by simp [hq])
    refine ⟨w1, w2.trans hb2, ?_⟩
    rw [show insertList t (pr :: rest) =
      insertList (insert t pr.1 pr.2).2 rest from rfl]
    rw [w3, length_allItems_insert pr.1 pr.2 t hWF,
      if_pos ((insert_fst_eq_true pr.1 pr.2 t hWF).mpr hc)]
    simp
    omega

end QuadTree

/-- C6: a QuadTree `insert` fails exactly on points outside the node's
bounds; inserting any list of in-bounds points into a fresh tree and then
querying with a radius that covers the whole bounds returns exactly as many
items as were inserted; and `queryRange` only ever returns items within the
queried radius of the centre. -/
theorem c6_quadtree_props :
    (∀ (β : Type) (t : QuadTree β) (p : Point) (d : β), QuadTree.WF t →
        ((QuadTree.insert t p d).1 = false ↔
          ¬ QuadTree.containsPt t.boundsOf p)) ∧
    (∀ (β : Type) (b : Bounds) (cap : ℕ) (l : List (Point × β)) (c : Point)
        (r : ℝ), 0 < cap → 0 ≤ b.width → 0 ≤ b.height →
        (∀ pr ∈ l, QuadTree.containsPt b pr.1) →
        (∀ q : Point, QuadTree.containsPt b q → dist2D q c ≤ r) →
        (QuadTree.queryRange
            (QuadTree.insertList (QuadTree.emptyLeaf b cap) l) c r).length =
          l.length) ∧
    (∀ (β : Type) (t : QuadTree β) (c : Point) (r : ℝ) (it : QItem β),
        it ∈ QuadTree.queryRange t c r → dist2D it.point c ≤ r) := by
  refine ⟨?_, ?_, ?_⟩
  · intro β t p d hWF
    have h := QuadTree.insert_fst_eq_true p d t hWF
    constructor
    · intro hf hc
      have := h.mpr hc
      rw [hf] at this
      exact Bool.false_ne_true this
    · intro hnc
      by_contra hne
      have hT : (QuadTree.insert t p d).1 = true := by
        revert hne
        cases (QuadTree.insert t p d).1 <;> simp
      exact hnc (h.mp hT)
  · intro β b cap l c r hcap hW hH hin hcov
    have hWF0 : QuadTree.WF (QuadTree.emptyLeaf b cap : QuadTree β) :=
      QuadTree.WF_emptyLeaf hW hH hcap
    obtain ⟨w1, w2, w3⟩ :=
      QuadTree.insertList_facts l (QuadTree.emptyLeaf b cap) hWF0
        fun pr hpr => hin pr hpr
    rw [QuadTree.queryRange_eq_allItems _ w1 fun q hq =>
      hcov q (by rw [w2] at hq; exact hq)]
    rw [w3]
    simp [QuadTree.emptyLeaf, QuadTree.allItems]
  · intro β t c r it h
    exact QuadTree.dist_le_of_mem_queryRange h

/-- Concrete unit square bounds for the C6 witness. -/
def qb0 : Bounds :=
  ⟨0, 0, 1, 1⟩

/-- The origin point. -/
def qOrigin : Point :=
  ⟨0, 0⟩

/-- A fresh tree over the unit square with the default capacity 4. -/
def qt0 : QuadTree Unit :=
  QuadTree.emptyLeaf qb0 4

/-- The tree after inserting the origin. -/
def qt1 : QuadTree Unit :=
  QuadTree.insertList qt0 [(qOrigin, ())]

/-- Closed witness for `c6_quadtree_props`: the singleton insertion into the
unit-square tree, queried at the origin with radius 10. -/
theorem c6_quadtree_props_witness :
    QuadTree.WF qt0 ∧
    ((QuadTree.insert qt0 qOrigin ()).1 = false ↔
      ¬ QuadTree.containsPt qt0.boundsOf qOrigin) ∧
    (QuadTree.queryRange qt1 qOrigin 10).length = 1 ∧
    dist2D qOrigin qOrigin ≤ 10 := by
  have hW : (0 : ℝ) ≤ qb0.width := by norm_num [qb0]
  have hH : (0 : ℝ) ≤ qb0.height := by norm_num [qb0]
  have hcap : 0 < 4 := by norm_num
  have hwf0 : QuadTree.WF qt0 := QuadTree.WF_emptyLeaf hW hH hcap
  have hcont : QuadTree.containsPt qb0 qOrigin := by
    refine ⟨?_, ?_, ?_, ?_⟩ <;> norm_num [qb0, qOrigin]
  have hin : ∀ pr ∈ [(qOrigin, ())], QuadTree.containsPt qb0 pr.1 := by
    intro pr hpr
    simp at hpr
    rw [hpr]
    exact hcont
  have hcov : ∀ q : Point, QuadTree.containsPt qb0 q → dist2D q qOrigin ≤ 10 := by
    intro q hq
    obtain ⟨h1, h2, h3, h4⟩ := hq
    norm_num [qb0] at h1 h2 h3 h4
    rw [dist2D]
    refine Real.sqrt_le_iff.mpr ⟨by norm_num, ?_⟩
    simp only [qOrigin]
    nlinarith
  have hqt1 : qt1 = QuadTree.leaf qb0 4 [⟨qOrigin, ()⟩] := by
    rw [show qt1 = (QuadTree.insert qt0 qOrigin ()).2 from rfl]
    rw [show qt0 = QuadTree.leaf qb0 4 [] from rfl]
    simp only [QuadTree.insert]
    rw [if_neg (not_not_intro hcont)]
    rw [if_pos (by norm_num : ([] : List (QItem Unit)).length < 4)]
    simp
  have hd0 : dist2D qOrigin qOrigin ≤ 10 := by
    rw [dist2D]
    simp [qOrigin]
  have hmem : (⟨qOrigin, ()⟩ : QItem Unit) ∈ QuadTree.queryRange qt1 qOrigin 10 := by
    rw [hqt1, QuadTree.queryRange]
    rw [if_neg (not_not_intro (QuadTree.intersectsCircle_of_covering hW hH hcov))]
    simp [List.mem_filter, hd0]
  have happly2 := c6_quadtree_props.2.1 Unit qb0 4 [(qOrigin, ())] qOrigin 10
    hcap hW hH hin hcov
  have happly3 := c6_quadtree_props.2.2 Unit qt1 qOrigin 10 ⟨qOrigin, ()⟩ hmem
  exact ⟨hwf0, c6_quadtree_props.1 Unit qt0 qOrigin () hwf0, happly2, happly3⟩

/-! ## Concrete step evaluations (C1, C2, C5) -/

/-- A `Math.random` stream that always yields `1/2`, making the
missile-heading jitter `(0.5·2 − 1)·… = 0`. -/
def rngHalf : ℕ → ℝ :=
  fun _ => 1 / 2

theorem isFighterDetected_nil {s : SimState}
    (h : s.samSystem.rangesAzimuth = []) :
    Scenario.isFighterDetected s = false := by
  simp [Scenario.isFighterDetected, Scenario.fighterDetect, h, listGetJS_nil]

/-- Fighter cruising at Mach 1, heading 0°, from `(0, 5)`; detection is off
(empty range table), no missiles in flight, no ammunition anywhere. -/
def c2State : SimState :=
  { timeStep := 1
    timeElapsed := 0
    heap := ⟨⟨50, 50⟩, ⟨0, 5⟩⟩
    samSystem :=
      { state := .active
        trackingStatus := ⟨.notTracking, 0⟩
        status := ⟨0, 0⟩
        launchIntervalSec := 5
        missileVelocity := 3
        memr := 20
        numPulses := 1
        pulseIntegrationMode := .coherent
        rangesAzimuth := [] }
    fighter :=
      { velocity := 1
        heading := 0
        rcs := ⟨1, 1, 1⟩
        harmVelocity := 2
        harmRange := 15
        missilesRemaining := 0
        state := .active
        maneuvers := .none }
    missiles := []
    isEngagementComplete := false }

theorem c2_state_eval :
    Scenario.advanceSimulationTimeStep rngHalf c2State =
      { c2State with
        timeElapsed := 1
        heap := ⟨⟨50, 50⟩, ⟨343 / 1000, 0⟩⟩ } := by
  have hdet : Scenario.isFighterDetected
      { c2State with timeElapsed := c2State.timeElapsed + c2State.timeStep } =
      false := isFighterDetected_nil rfl
  simp only [Scenario.advanceSimulationTimeStep, hdet]
  simp only [Scenario.trackingPhase, Bool.false_eq_true, if_false,
    Scenario.samLaunchPhase, Scenario.harmLaunchPhase,
    Scenario.shouldFighterLaunchHARM, Fighter.shouldLaunchHARM,
    Scenario.missileHeadingPhase, Scenario.missilePositionPhase,
    Scenario.evasivePhase, Scenario.fighterMovePhase,
    Scenario.updateFighterPosition, Scenario.killPhase, c2State]
  have hm : (ManeuverKind.none = ManeuverKind.evasive) = False := by simp
  have hp : (PlatformState.active = PlatformState.active) = True := by simp
  norm_num [hm, hp, Real.cos_zero, Real.sin_zero]

/-- C2 code bug at a concrete input: fighter at `(0, 5)`, heading 0°,
Mach 1, one 1-second step.  The `x` coordinate follows the claimed Euler
update, but the source assigns (rather than increments) `y`, so the new `y`
is `0` where the claimed straight-line integration gives `5`. -/
theorem c2_fighter_update_code_bug :
    (Scenario.advanceSimulationTimeStep rngHalf c2State).heap.fighterCell.x =
      c2State.heap.fighterCell.x + c2State.fighter.velocity * 343 / 1000 *
        c2State.timeStep * Real.cos (c2State.fighter.heading * Real.pi / 180) ∧
    (Scenario.advanceSimulationTimeStep rngHalf c2State).heap.fighterCell.y = 0 ∧
    c2State.heap.fighterCell.y + c2State.fighter.velocity * 343 / 1000 *
      c2State.timeStep * Real.sin (c2State.fighter.heading * Real.pi / 180) = 5 ∧
    (0 : ℝ) ≠ 5 := by
  rw [c2_state_eval]
  refine ⟨?_, ?_, ?_, by norm_num⟩
  · show (343 / 1000 : ℝ) = 0 + 1 * 343 / 1000 * 1 * Real.cos (0 * Real.pi / 180)
    norm_num
  · rfl
  · show (5 : ℝ) + 1 * 343 / 1000 * 1 * Real.sin (0 * Real.pi / 180) = 5
    norm_num

/-- The in-flight SAM missile of the C1 scenario: at the SAM position cell
`(0, 0)`, heading 0°, 2 km/s, launched at time 0, 100 km of range, aimed at
the fighter. -/
def c1Missile : TMissile :=
  { posPtr := .sam
    velocity := 2
    heading := 0
    status := .active
    launchedBy := .sam
    timeOfLaunch := 0
    timeOfImpact := 0
    maxRange := 100
    target := .fighter }

/-- C1 scenario: the missile's position object (the SAM cell) is at
`(0, 0)`, the target fighter sits at `(1, 0)` with zero velocity, and one
1-second step moves the missile to `(2, 0)` — straight through the target.
Detection is off (empty range table) and nobody has ammunition, so no new
launches interfere. -/
def c1State : SimState :=
  { timeStep := 1
    timeElapsed := 0
    heap := ⟨⟨0, 0⟩, ⟨1, 0⟩⟩
    samSystem :=
      { state := .active
        trackingStatus := ⟨.notTracking, 0⟩
        status := ⟨0, 0⟩
        launchIntervalSec := 5
        missileVelocity := 3
        memr := 20
        numPulses := 1
        pulseIntegrationMode := .coherent
        rangesAzimuth := [] }
    fighter :=
      { velocity := 0
        heading := 0
        rcs := ⟨1, 1, 1⟩
        harmVelocity := 2
        harmRange := 15
        missilesRemaining := 0
        state := .active
        maneuvers := .none }
    missiles := [c1Missile]
    isEngagementComplete := false }

theorem c1_state_eval :
    Scenario.advanceSimulationTimeStep rngHalf c1State =
      { c1State with
        timeElapsed := 1
        heap := ⟨⟨2, 0⟩, ⟨1, 0⟩⟩ } := by
  have hdet : Scenario.isFighterDetected
      { c1State with timeElapsed := c1State.timeElapsed + c1State.timeStep } =
      false := isFighterDetected_nil rfl
  simp only [Scenario.advanceSimulationTimeStep, hdet]
  simp only [Scenario.trackingPhase, Bool.false_eq_true, if_false,
    Scenario.samLaunchPhase, Scenario.harmLaunchPhase,
    Scenario.shouldFighterLaunchHARM, Fighter.shouldLaunchHARM,
    Scenario.missileHeadingPhase, Scenario.missilePositionPhase,
    Scenario.evasivePhase, Scenario.fighterMovePhase,
    Scenario.updateFighterPosition, Scenario.killPhase, Scenario.killFold,
    Scenario.checkMissileIntercept, Scenario.pursuitHeading,
    heapGet, heapSet, rngHalf, c1State, c1Missile]
  have hm : (ManeuverKind.none = ManeuverKind.evasive) = False := by simp
  have hp : (PlatformState.active = PlatformState.active) = True := by simp
  have ht : (TrackStatus.notTracking = TrackStatus.tracking) = False := by simp
  have hs : (MissileStatus.active = MissileStatus.active) = True := by simp
  norm_num [hm, hp, ht, hs, Scenario.killFold, Scenario.checkMissileIntercept,
    heapGet, Real.cos_zero, Real.sin_zero, Real.sqrt_zero]

/-- C1 code bug at a concrete input: the missile's straight-line path this
step runs from `(0, 0)` to `(2, 0)` and passes exactly through the target
at `(1, 0)` — the midpoint — yet the step marks no kill: the missile stays
`'active'` (`timeOfImpact` still 0) and the fighter stays `'active'`,
because the "previous position" fed to `checkMissileIntercept` is a copy of
the already-updated position, making the test segment degenerate. -/
theorem c1_intercept_code_bug :
    c1State.heap.samCell = (⟨0, 0⟩ : Point) ∧
    (Scenario.advanceSimulationTimeStep rngHalf c1State).heap.samCell =
      (⟨2, 0⟩ : Point) ∧
    c1State.heap.fighterCell = (⟨1, 0⟩ : Point) ∧
    (Scenario.advanceSimulationTimeStep rngHalf c1State).heap.fighterCell =
      (⟨1, 0⟩ : Point) ∧
    (1 : ℝ) = (0 + 2) / 2 ∧
    (Scenario.advanceSimulationTimeStep rngHalf c1State).missiles.map
        (fun m => m.status) = [MissileStatus.active] ∧
    (Scenario.advanceSimulationTimeStep rngHalf c1State).missiles.map
        (fun m => m.timeOfImpact) = [0] ∧
    (Scenario.advanceSimulationTimeStep rngHalf c1State).fighter.state =
      PlatformState.active := by
  rw [c1_state_eval]
  refine ⟨rfl, rfl, rfl, rfl, by norm_num, ?_, ?_, rfl⟩
  · simp [c1State, c1Missile]
  · simp [c1State, c1Missile]

/-- C5 scenario: SAM at the origin with one missile and a 100 km entry in
the range table, fighter parked at `(10, 0)`; detection, MEMR and the
launch interval all pass, so the step launches a SAM missile — which
receives the SAM's own position object. -/
def c5State : SimState :=
  { timeStep := 1
    timeElapsed := 0
    heap := ⟨⟨0, 0⟩, ⟨10, 0⟩⟩
    samSystem :=
      { state := .active
        trackingStatus := ⟨.notTracking, 0⟩
        status := ⟨1, 0⟩
        launchIntervalSec := 0
        missileVelocity := 3
        memr := 20
        numPulses := 1
        pulseIntegrationMode := .coherent
        rangesAzimuth := [100] }
    fighter :=
      { velocity := 0
        heading := 0
        rcs := ⟨1, 1, 1⟩
        harmVelocity := 2
        harmRange := 15
        missilesRemaining := 0
        state := .active
        maneuvers := .none }
    missiles := []
    isEngagementComplete := false }

theorem jsAtan2_zero_ten : jsAtan2 (0 : ℝ) 10 = 0 := by
  rw [jsAtan2, if_pos (by norm_num : (0 : ℝ) < 10)]
  norm_num

theorem sqrt_hundred : Real.sqrt 100 = 10 := by
  rw [show (100 : ℝ) = 10 ^ 2 by norm_num,
    Real.sqrt_sq (by norm_num : (0 : ℝ) ≤ 10)]

theorem c5_detected :
    Scenario.isFighterDetected
      { c5State with timeElapsed := c5State.timeElapsed + c5State.timeStep } =
      true := by
  simp only [Scenario.isFighterDetected, Scenario.fighterDetect,
    Fighter.getAzimuthFromSAM, Scenario.getDistanceSAMToFighter, dist2D,
    Fighter.getRCSAtAspect, Radar.calculateDetectionRange,
    Radar.calculatePulseIntegrationGain, Radar.wattsToDecibels,
    Radar.rangeDeltaFromDecibels, Radar.decibelsToWatts, c5State]
  norm_num [jsAtan2_zero_ten, jsRem_zero_left, jsRound, jsRemInt, listGetJS,
    jsNormalizeDeg_zero, sqrt_hundred, Real.sqrt_one, Real.logb_one,
    Real.rpow_zero, Real.one_rpow, Int.floor_eq_iff]

/-- The missile the C5 step launches: it points at the SAM's own position
cell. -/
def c5ExpectedMissile : TMissile :=
  { posPtr := .sam
    velocity := 1029 / 1000
    heading := 0
    status := .active
    launchedBy := .sam
    timeOfLaunch := 1
    timeOfImpact := 0
    maxRange := 20
    target := .fighter }

theorem c5_state_eval :
    Scenario.advanceSimulationTimeStep rngHalf c5State =
      { c5State with
        timeElapsed := 1
        heap := ⟨⟨1029 / 1000, 0⟩, ⟨10, 0⟩⟩
        samSystem := { c5State.samSystem with
          trackingStatus := ⟨.tracking, 1⟩
          status := ⟨0, 1⟩ }
        missiles := [c5ExpectedMissile] } := by
  simp only [Scenario.advanceSimulationTimeStep, c5_detected]
  simp only [Scenario.trackingPhase, Scenario.samLaunchPhase,
    SAMSystemState.isWithinMEMR, Scenario.getDistanceSAMToFighter,
    Scenario.getAzimuthSAMToFighter, dist2D, Scenario.harmLaunchPhase,
    Scenario.shouldFighterLaunchHARM, Fighter.shouldLaunchHARM,
    Scenario.missileHeadingPhase, Scenario.missilePositionPhase,
    Scenario.evasivePhase, Scenario.fighterMovePhase,
    Scenario.updateFighterPosition, Scenario.killPhase, Scenario.killFold,
    Scenario.checkMissileIntercept, Scenario.pursuitHeading, createMissile,
    heapGet, heapSet, rngHalf, c5State, c5ExpectedMissile]
  have hm : (ManeuverKind.none = ManeuverKind.evasive) = False := by simp
  have hp : (PlatformState.active = PlatformState.active) = True := by simp
  have ht : (TrackStatus.tracking = TrackStatus.tracking) = True := by simp
  have hs : (MissileStatus.active = MissileStatus.active) = True := by simp
  norm_num [hm, hp, ht, hs, Scenario.killFold, Scenario.checkMissileIntercept,
    heapGet, jsAtan2_zero_ten, sqrt_hundred, Real.cos_zero, Real.sin_zero,
    Real.sqrt_zero]

/-- C5 code bug at a concrete input: before the step the SAM system sits at
`(0, 0)`; the step launches a SAM missile (passing the SAM's own position
object to `createMissile`) and the missile position update then drags the
SAM system itself to `(1.029, 0)` — `samSystem.position` is not preserved
by `advanceSimulationTimeStep` once a missile is in flight. -/
theorem c5_sam_position_code_bug :
    c5State.heap.samCell = (⟨0, 0⟩ : Point) ∧
    (Scenario.advanceSimulationTimeStep rngHalf c5State).heap.samCell =
      (⟨1029 / 1000, 0⟩ : Point) ∧
    ((1029 : ℝ) / 1000 ≠ 0) ∧
    (Scenario.advanceSimulationTimeStep rngHalf c5State).missiles.map
        (fun m => (m.launchedBy, m.posPtr)) = [(Owner.sam, Owner.sam)] := by
  rw [c5_state_eval]
  refine ⟨rfl, rfl, by norm_num, ?_⟩
  simp [c5State, c5ExpectedMissile]

/-- Closed instance of `c4_engagement_success_iff`: with the SAM destroyed,
`success` is not true. -/
theorem c4_engagement_success_iff_witness :
    ¬ (Scenario.engagementResult c4SampleState).success = true :=
  fun h => (c4_engagement_success_iff c4SampleState).mp h rfl

/-- Closed instance of `c3_reset_amended` at the destroyed-fighter state. -/
theorem c3_reset_amended_witness :
    Scenario.getTimeElapsed (Scenario.resetScenarioState c3DestroyedState) = 0 ∧
    (Scenario.resetScenarioState c3DestroyedState).fighter =
      c3DestroyedState.fighter :=
  ⟨(c3_reset_amended c3DestroyedState).1, (c3_reset_amended c3DestroyedState).2.2.2.1⟩

/-- Closed instance of `c8_detection_range_formula`: 16 m² RCS, one pulse,
5 km base range gives 10 km. -/
theorem c8_detection_range_formula_witness :
    Radar.calculateDetectionRange PulseMode.coherent 16 1 5 = 2 * 5 :=
  c8_detection_range_formula.2.2 PulseMode.coherent 5

/-- Closed instance of `c9_harm_launch_gate` at the C2 state. -/
theorem c9_harm_launch_gate_witness :
    fighterMissileCount (Scenario.advanceSimulationTimeStep rngHalf c2State) =
      fighterMissileCount c2State +
        (if Scenario.harmGate c2State then 1 else 0) :=
  (c9_harm_launch_gate rngHalf c2State).2.2.1
